import Mathlib

/-!
The gorm-oracle-driver: a shallow embedding of the dialector and its callbacks.

The Go sources `oracle.go`, `update.go`, `delete.go`, `query.go` and `raw.go` are
embedded as Lean functions, and the properties C1 to C10 of the specification are
stated and settled on them.  Conventions of the embedding:

* A Go panic is the `Except.error` branch of `Except String`; the string is the
  panic message.
* A Go `string` is a Lean `String`, its sequence of runes.
* `int` and `uint` are 64 bits wide.  An `int` is an `Int`, a `uint` a `Nat`; the one
  conversion between them, `int(defaultSize)` in `DataTypeOf`, wraps modulo `2^64`.
* A Go `map[string]T` is an association list `GoMap T`; the order of the list is
  the order in which a `range` loop visits the entries, so a theorem that
  quantifies over the list quantifies over every iteration order.
* An `interface{}` value is a `Value`: `nil`, or a dynamic type together with
  its payload.
* A pointer to a `schema.Field` is an index into the list of fields of the schema.
* Functions of the gorm framework, of the connection pool and of the Go standard
  library that the sources call but do not define are the fields of the structure
  `Gorm`; every theorem holds for every such structure, under the hypotheses it
  states.
-/

namespace GormOracle

/-! ## Go values -/

deriving instance DecidableEq for Except

/-- The panic raised by a nil pointer dereference. -/
def nilDeref : String := "runtime error: invalid memory address or nil pointer dereference"

/-- The kinds of `reflect.Kind`. -/
inductive Kind
  | Invalid | Bool
  | Int | Int8 | Int16 | Int32 | Int64
  | Uint | Uint8 | Uint16 | Uint32 | Uint64 | Uintptr
  | Float32 | Float64 | Complex64 | Complex128
  | Array | Chan | Func | Interface | Map | Pointer | Slice | String | Struct | UnsafePointer
  deriving DecidableEq, Repr

/-- The signed integer kinds `reflect.Int .. reflect.Int64`. -/
inductive IntKind
  | Int | Int8 | Int16 | Int32 | Int64
  deriving DecidableEq, Repr

/-- The unsigned integer kinds `reflect.Uint .. reflect.Uint64`. -/
inductive UintKind
  | Uint | Uint8 | Uint16 | Uint32 | Uint64
  deriving DecidableEq, Repr

/-- The float kinds `reflect.Float32` and `reflect.Float64`. -/
inductive FloatKind
  | Float32 | Float64
  deriving DecidableEq, Repr

/-- The kinds a dynamic value can have besides the integer, float and string kinds. -/
inductive OtherKind
  | Bool | Uintptr | Complex64 | Complex128
  | Array | Chan | Func | Map | Pointer | Slice | Struct | UnsafePointer
  deriving DecidableEq, Repr

/-- The number a floating-point value stands for; widening `float32` to `float64`
is exact, so it keeps this number. -/
inductive FloatVal
  | finite (mantissa : Int) (exponent : Int)
  | inf (negative : Bool)
  | nan
  deriving DecidableEq, Repr

/-- An `interface{}` value.  `typeName = none` is the predeclared type of the kind
(`int`, `uint8`, `string`, ...) or an unnamed composite type; `typeName = some n`
is the defined type `n` (for instance `type Status int`). -/
inductive Value
  | nil
  | int (k : IntKind) (typeName : Option String) (v : Int)
  | uint (k : UintKind) (typeName : Option String) (v : Nat)
  | float (k : FloatKind) (typeName : Option String) (v : FloatVal)
  | str (typeName : Option String) (s : String)
  | other (k : OtherKind) (typeName : Option String) (repr : String)
  deriving DecidableEq, Repr

def IntKind.toKind : IntKind → Kind
  | .Int => .Int | .Int8 => .Int8 | .Int16 => .Int16 | .Int32 => .Int32 | .Int64 => .Int64

def UintKind.toKind : UintKind → Kind
  | .Uint => .Uint | .Uint8 => .Uint8 | .Uint16 => .Uint16 | .Uint32 => .Uint32
  | .Uint64 => .Uint64

def FloatKind.toKind : FloatKind → Kind
  | .Float32 => .Float32 | .Float64 => .Float64

def OtherKind.toKind : OtherKind → Kind
  | .Bool => .Bool | .Uintptr => .Uintptr | .Complex64 => .Complex64
  | .Complex128 => .Complex128 | .Array => .Array | .Chan => .Chan | .Func => .Func
  | .Map => .Map | .Pointer => .Pointer | .Slice => .Slice | .Struct => .Struct
  | .UnsafePointer => .UnsafePointer

/-- A `reflect.Type`: its kind and, for a defined type, its name. -/
structure GoType where
  kind : Kind
  name : Option String
  deriving DecidableEq, Repr

/-- The function `reflect.TypeOf`: the dynamic type, `none` (a nil `reflect.Type`) for a
nil interface value. -/
def TypeOf : Value → Option GoType
  | .nil => none
  | .int k n _ => some ⟨k.toKind, n⟩
  | .uint k n _ => some ⟨k.toKind, n⟩
  | .float k n _ => some ⟨k.toKind, n⟩
  | .str n _ => some ⟨Kind.String, n⟩
  | .other k n _ => some ⟨k.toKind, n⟩

/-- The call `reflect.TypeOf(val).Kind()`: a method call on a nil `reflect.Type`
panics. -/
def kindOf (val : Value) : Except String Kind :=
  match TypeOf val with
  | none => .error nilDeref
  | some t => .ok t.kind

/-- The method `reflect.Value.Int`, an `int64`. -/
def reflectInt : Value → Except String Int
  | .int _ _ v => .ok v
  | _ => .error "reflect: call of reflect.Value.Int on non-int Value"

/-- The method `reflect.Value.Uint`, a `uint64`. -/
def reflectUint : Value → Except String Nat
  | .uint _ _ v => .ok v
  | _ => .error "reflect: call of reflect.Value.Uint on non-uint Value"

/-- The method `reflect.Value.Float`, a `float64`. -/
def reflectFloat : Value → Except String FloatVal
  | .float _ _ v => .ok v
  | _ => .error "reflect: call of reflect.Value.Float on non-float Value"

/-- The method `reflect.Value.String` on a value of string kind. -/
def reflectString : Value → Except String String
  | .str _ s => .ok s
  | _ => .error "reflect: call of reflect.Value.String on non-string Value"

/-- The case list `int, int8, ..., uint64, float32, float64, string` of the type
switches in `transferValType`, `BeforeUpdate` and `BeforeDelete`: the dynamic type is
one of these predeclared types. -/
def isDriverPrimitive : Value → Bool
  | .int _ none _ => true
  | .uint _ none _ => true
  | .float _ none _ => true
  | .str none _ => true
  | _ => false

/-! ## Go maps -/

/-- A `map[string]β`, listed in iteration order. -/
abbrev GoMap (β : Type) := List (String × β)

/-- The lookup `v, ok := m[k]`. -/
def GoMap.get {β : Type} (m : GoMap β) (k : String) : Option β :=
  match m with
  | [] => none
  | (k', v) :: rest => if k' = k then some v else GoMap.get rest k

/-- The test `_, ok := m[k]`. -/
def GoMap.has {β : Type} (m : GoMap β) (k : String) : Bool :=
  (m.get k).isSome

/-- The builtin `delete(m, k)`. -/
def GoMap.delete {β : Type} (m : GoMap β) (k : String) : GoMap β :=
  match m with
  | [] => []
  | (k', v) :: rest => if k' = k then GoMap.delete rest k else (k', v) :: GoMap.delete rest k

/-- The assignment `m[k] = v`. -/
def GoMap.set {β : Type} (m : GoMap β) (k : String) (v : β) : GoMap β :=
  (k, v) :: m.delete k

/-- The keys of the map. -/
def GoMap.keys {β : Type} (m : GoMap β) : List String :=
  m.map Prod.fst

/-! ## Strings -/

/-- The function `strings.Trim(s, cutset)`: drop the leading and the trailing runes
that occur in `cutset`. -/
def Trim (s cutset : String) : String :=
  ⟨((s.data.dropWhile (fun c => cutset.data.contains c)).rdropWhile
    (fun c => cutset.data.contains c))⟩

/-- The function `strings.ToUpper`: `unicode.ToUpper`, the parameter `upper`, applied to
each rune. -/
def ToUpper (upper : Char → Char) (s : String) : String :=
  ⟨s.data.map upper⟩

/-- The function `strconv.Itoa`: the decimal rendering of an `int`. -/
def Itoa (i : Int) : String :=
  if i < 0 then "-" ++ Nat.repr i.natAbs else Nat.repr i.toNat

/-- The rune mapping of `unicode.ToUpper` on the ASCII range: `a`..`z` go to `A`..`Z`,
every other rune is kept. -/
def asciiUpper (c : Char) : Char :=
  if 97 ≤ c.toNat ∧ c.toNat ≤ 122 then Char.ofNat (c.toNat - 32) else c

/-- The conversion `int(u)` of a `uint`: both are 64 bits wide, so values from `2^63`
on wrap to negative ones. -/
def uintToInt (u : Nat) : Int :=
  if u % 2 ^ 64 < 2 ^ 63 then ((u % 2 ^ 64 : Nat) : Int) else ((u % 2 ^ 64 : Nat) : Int) - 2 ^ 64

/-! ## The data model of the framework, as far as the driver reads and writes it -/

/-- An `error` value. -/
inductive Error
  | ErrMissingWhereClause
  | ErrInvalidData
  | other (msg : String)
  | chained (earlier later : Error)
  deriving DecidableEq, Repr

/-- A `schema.Field`.  `DataType` is the string behind `schema.DataType`;
`FieldTypeName` and `FieldTypeString` are `FieldType.Name()` and `FieldType.String()`. -/
structure Field where
  DBName : String
  DataType : String
  Size : Int
  PrimaryKey : Bool
  HasDefaultValue : Bool
  NotNull : Bool
  TagSettings : GoMap String
  FieldTypeName : String
  FieldTypeString : String
  deriving DecidableEq, Repr

/-- The constants of `schema.DataType`. -/
def schemaBool : String := "bool"
def schemaInt : String := "int"
def schemaUint : String := "uint"
def schemaFloat : String := "float"
def schemaString : String := "string"
def schemaTime : String := "time"
def schemaBytes : String := "bytes"

/-- A `clause.Column`. -/
structure Column where
  Table : String
  Name : String
  deriving DecidableEq, Repr

/-- A `clause.Expression` held by a clause.  The conditions of a `clause.Where` are
kept as opaque texts: the driver only counts them. -/
inductive Expression
  | Where (Exprs : List String)
  | Limit (Limit : Int) (Offset : Int)
  | Returning (Columns : List Column)
  | Other (descr : String)
  deriving DecidableEq, Repr

/-- A `clause.Clause`; `Expression = none` is the nil interface. -/
structure Clause where
  Name : String
  Expression : Option Expression
  deriving DecidableEq, Repr

/-- The value in `Statement.Dest` or `Statement.Model`. -/
inductive Dest
  | nil
  | map (m : GoMap Value)
  | pointer (addr : Nat)
  | other (descr : String)
  deriving DecidableEq, Repr

/-- A `reflect.Value`, as far as `Update` and `Delete` use `Statement.ReflectValue`:
whether it is addressable and what `Addr().Interface()` gives. -/
structure ReflectValue where
  CanAddr : Bool
  Addr : Dest
  deriving DecidableEq, Repr

/-- A `clause.Interface` handed to `Statement.AddClause`. -/
inductive ClauseInterface
  | ofSchema (name : String)
  | Update
  | Delete
  | From
  | Set (assignments : List (String × Value))
  | WhereIN (column : String) (values : List Value)
  deriving DecidableEq, Repr

/-- A `schema.Schema`.  `Fields` is the store of `*schema.Field` objects and
`FieldsByDBName` maps a name to an index into it (a pointer); a name that is not
in the map gives the nil pointer. -/
structure Schema where
  Table : String
  DBNames : List String
  FieldsByDBName : GoMap Nat
  Fields : List Field
  UpdateClauses : List String
  DeleteClauses : List String
  deriving DecidableEq, Repr

/-- A `gorm.Statement`. -/
structure Statement where
  Table : String
  Model : Dest
  Dest : Dest
  ReflectValue : ReflectValue
  Clauses : GoMap Clause
  BuildClauses : List String
  SQL : String
  Vars : List Value
  Schema : Option Schema
  deriving DecidableEq, Repr

/-- A call issued on `Statement.ConnPool`. -/
inductive PoolCall
  | ExecContext (sql : String) (vars : List Value)
  | QueryContext (sql : String) (vars : List Value)
  deriving DecidableEq, Repr

/-- A `gorm.DB`.  `PoolCalls` records, oldest first, the calls the callbacks of the
driver issue on the connection pool. -/
structure DB where
  Statement : Option Statement
  Error : Option Error
  AllowGlobalUpdate : Bool
  DryRun : Bool
  RowsAffected : Int
  PoolCalls : List PoolCall
  deriving DecidableEq, Repr

/-- The `callbacks.Config` built by `Initialize`. -/
structure CallbacksConfig where
  CreateClauses : List String
  QueryClauses : List String
  UpdateClauses : List String
  DeleteClauses : List String
  deriving DecidableEq, Repr

/-- The `Config` of the dialector.  `Conn` is the connection pool given by the caller, if
any; `DefaultStringSize` is a `uint`. -/
structure Config where
  DriverName : String
  DSN : String
  Conn : Option Nat
  DefaultStringSize : Nat
  deriving DecidableEq, Repr

/-- What `ExecContext` answers: the rows affected, or an error. -/
inductive ExecResult
  | ok (rowsAffected : Int)
  | err (e : Error)
  deriving DecidableEq, Repr

/-- What `QueryContext` answers: a handle on the rows, or an error. -/
inductive QueryResult
  | ok (rows : Nat)
  | err (e : Error)
  deriving DecidableEq, Repr

/-- A method of `gorm.Statement` defined by the framework: it rewrites the statement,
may report errors through `AddError`, and may panic. -/
abbrev StmtStep := Statement → Except String (Statement × List Error)

/-- The functions the driver calls and does not define: the framework (gorm), the
connection pool and the standard library. -/
structure Gorm where
  /-- The rune mapping `unicode.ToUpper` -/
  upper : Char → Char
  /-- The function `strings.EqualFold` -/
  EqualFold : String → String → Bool
  /-- The function `utils.CheckTruth` -/
  CheckTruth : String → Bool
  /-- The callback `callbacks.BeforeUpdate`, which runs the hooks of the model -/
  BeforeUpdate : DB → Except String DB
  /-- The callback `callbacks.BeforeDelete` -/
  BeforeDelete : DB → Except String DB
  /-- The method `Statement.AddClause` -/
  AddClause : ClauseInterface → StmtStep
  /-- The method `Statement.AddClauseIfNotExists` -/
  AddClauseIfNotExists : ClauseInterface → StmtStep
  /-- The function `callbacks.ConvertToAssignments` -/
  ConvertToAssignments : Statement → Except String (List (String × Value) × Statement × List Error)
  /-- The call `stmt.Build(stmt.BuildClauses...)` of the method `Statement.Build` -/
  Build : StmtStep
  /-- The function `schema.GetIdentityFieldValuesMap` on `Statement.ReflectValue` followed by
  `schema.ToQueryValues`: the column and the values -/
  PrimaryValuesOfReflectValue : Statement → String × List Value
  /-- The same on `reflect.ValueOf(Statement.Model)` -/
  PrimaryValuesOfModel : Statement → String × List Value
  /-- The function `callbacks.BuildQuerySQL` -/
  BuildQuerySQL : DB → Except String DB
  /-- The function `callbacks.RawExec` -/
  RawExec : DB → Except String DB
  /-- The method `ConnPool.ExecContext` -/
  ExecContext : String → List Value → ExecResult
  /-- The method `ConnPool.QueryContext` -/
  QueryContext : String → List Value → QueryResult
  /-- The function `gorm.Scan` -/
  Scan : Nat → DB → Nat → Except String DB
  /-- The method `rows.Close` -/
  RowsClose : Nat → Option Error
  /-- The function `sql.Open` -/
  sqlOpen : String → String → Option Nat × Option Error
  /-- The method `callback.Replace` on the named processor -/
  Replace : String → String → Option Error

/-- The constant `gorm.ScanUpdate`. -/
def ScanUpdate : Nat := 2

/-- The method `db.AddError`: the first error is recorded as it is, a later one is
chained to the one on record; a nil error changes nothing. -/
def AddError (db : DB) (err : Option Error) : DB :=
  match err with
  | none => db
  | some e =>
    match db.Error with
    | none => { db with Error := some e }
    | some earlier => { db with Error := some (Error.chained earlier e) }

/-- Record the errors of a framework step, in order. -/
def addErrors (db : DB) (errs : List Error) : DB :=
  errs.foldl (fun d e => AddError d (some e)) db

/-- Run a method of the framework on `db.Statement`; the statement must not be nil. -/
def runStep (step : StmtStep) (db : DB) : Except String DB :=
  match db.Statement with
  | none => .error nilDeref
  | some stmt =>
    match step stmt with
    | .error p => .error p
    | .ok (stmt', errs) => .ok (addErrors { db with Statement := some stmt' } errs)

/-! ## oracle.go -/

/-- What `Initialize` leaves behind: the `Config` behind the pointer of the dialector,
the naming strategy and connection pool of the db, the callbacks replaced so far, the
clause builders installed, and the error returned. -/
structure Initialized where
  Config : Config
  NamingStrategy : String
  ConnPool : Option Nat
  Replaced : List (String × String)
  ClauseBuilders : List String
  err : Option Error
  deriving DecidableEq, Repr

/-- The callbacks `Initialize` replaces, in order: processor and callback name. -/
def replacedCallbacks : List (String × String) :=
  [("create", "gorm:before_create"), ("create", "gorm:create"), ("query", "gorm:query"),
   ("update", "gorm:before_update"), ("update", "gorm:update"),
   ("delete", "gorm:before_delete"), ("delete", "gorm:delete"),
   ("row", "gorm:row"), ("raw", "gorm:raw")]

/-- The chain of `Replace` calls of `Initialize`: the first error ends it. -/
def replaceAll (g : Gorm) :
    List (String × String) → List (String × String) → List (String × String) × Option Error
  | [], done => (done, none)
  | (processor, name) :: rest, done =>
    match g.Replace processor name with
    | some e => (done, some e)
    | none => replaceAll g rest (done ++ [(processor, name)])

/-- The keys of `Dialector.ClauseBuilders`. -/
def ClauseBuilders : List String := ["LIMIT"]

/-- The method `Dialector.Initialize`.  The receiver is a copy of the dialector, but its
`Config` is a pointer, so the writes to `DefaultStringSize` and `DriverName` reach the
configuration every copy of the dialector shares. -/
def Initialize (g : Gorm) (d : Config) : Initialized :=
  let d := { d with DefaultStringSize := 1024 }
  let d := { d with DriverName := "godror" }
  let pool := match d.Conn with
    | some conn => some conn
    | none => (g.sqlOpen d.DriverName d.DSN).1
  match replaceAll g replacedCallbacks [] with
  | (done, some e) =>
    { Config := d, NamingStrategy := "Namer", ConnPool := pool, Replaced := done,
      ClauseBuilders := [], err := some e }
  | (done, none) =>
    { Config := d, NamingStrategy := "Namer", ConnPool := pool, Replaced := done,
      ClauseBuilders := ClauseBuilders, err := none }

/-- A `clause.Builder`: a `*gorm.Statement`, or another builder with the text written to it
so far. -/
inductive Builder
  | ofStatement (stmt : Statement)
  | ofOther (written : String)
  deriving DecidableEq, Repr

/-- The method `WriteString` of a builder. -/
def Builder.WriteString (b : Builder) (s : String) : Builder :=
  match b with
  | .ofStatement stmt => .ofStatement { stmt with SQL := stmt.SQL ++ s }
  | .ofOther written => .ofOther (written ++ s)

/-- The text a builder holds. -/
def Builder.text : Builder → String
  | .ofStatement stmt => stmt.SQL
  | .ofOther written => written

/-- The method `Dialector.RewriteLimit`: the builder after the call and the panic raised,
if any. -/
def RewriteLimit (c : Clause) (builder : Builder) : Builder × Option String :=
  match c.Expression with
  | some (.Limit limit offset) =>
    match builder with
    | .ofStatement stmt =>
      let b1 := if !(stmt.Clauses.has "WHERE") then builder.WriteString "WHERE 1 = 1 " else builder
      let b2 := b1.WriteString " AND ROWNUM <= "
      let b3 := b2.WriteString (Itoa limit)
      if offset > 0 then (b3, some "Offset not supported.") else (b3, none)
    | .ofOther _ => (builder, none)
  | _ => (builder, none)

/-- The method `Dialector.BindVarTo`: the writer after the call.  The statement is only
read. -/
def BindVarTo (writer : Builder) (stmt : Statement) (_v : Value) : Builder :=
  let w1 := writer.WriteString ":"
  w1.WriteString (Itoa (stmt.Vars.length : Nat))

/-- The method `Dialector.QuoteTo`. -/
def QuoteTo (writer : Builder) (str : String) : Builder :=
  writer.WriteString str

/-- The pattern `numericPlaceholder`, a colon followed by one or more decimal digits:
whether the whole of `s` matches it. -/
def numericPlaceholder (s : String) : Bool :=
  match s.data with
  | ':' :: d :: ds => (d :: ds).all Char.isDigit
  | _ => false

/-- The method `Dialector.DataTypeOf`: the field after the call (the field is behind a
pointer) and the column type, or the panic. -/
def DataTypeOf (g : Gorm) (d : Config) (field : Field) : Field × Except String String :=
  let field :=
    if field.TagSettings.has "RESTRICT" then
      { field with TagSettings := field.TagSettings.delete "RESTRICT" }
    else field
  if field.DataType = schemaBool ∨ field.DataType = schemaInt ∨ field.DataType = schemaUint
      ∨ field.DataType = schemaFloat then
    let sqlType := "INTEGER"
    let sqlType :=
      if field.DataType = schemaFloat then "FLOAT"
      else if field.Size ≤ 8 then "SMALLINT"
      else sqlType
    let sqlType :=
      match field.TagSettings.get "AUTOINCREMENT" with
      | some val => if g.CheckTruth val then sqlType ++ " GENERATED BY DEFAULT AS IDENTITY" else sqlType
      | none => sqlType
    (field, .ok sqlType)
  else if field.DataType = schemaString ∨ field.DataType = "VARCHAR2" then
    let size := field.Size
    let defaultSize := d.DefaultStringSize
    let size :=
      if size = 0 then
        if defaultSize % 2 ^ 64 > 0 then uintToInt defaultSize
        else
          let hasIndex := (field.TagSettings.get "INDEX").getD "" ≠ ""
            ∨ (field.TagSettings.get "UNIQUE").getD "" ≠ ""
          if field.PrimaryKey ∨ field.HasDefaultValue ∨ hasIndex then 191 else size
      else size
    if size ≥ 2000 then (field, .ok "CLOB")
    else (field, .ok ("VARCHAR2(" ++ Itoa size ++ ")"))
  else if field.DataType = schemaTime then
    let sqlType := "TIMESTAMP WITH TIME ZONE"
    let sqlType := if field.NotNull ∨ field.PrimaryKey then sqlType ++ " NOT NULL" else sqlType
    (field, .ok sqlType)
  else if field.DataType = schemaBytes then
    (field, .ok "BLOB")
  else
    let sqlType := field.DataType
    let sqlType := if g.EqualFold sqlType "text" then "CLOB" else sqlType
    if sqlType = "" then
      (field, .error ("invalid sql type " ++ field.FieldTypeName ++ " (" ++ field.FieldTypeString
        ++ ") for oracle"))
    else
      let notNull := (field.TagSettings.get "NOT NULL").getD ""
      let unique := (field.TagSettings.get "UNIQUE").getD ""
      let additionalType := notNull ++ " " ++ unique
      let additionalType :=
        match field.TagSettings.get "DEFAULT" with
        | some value =>
          "DEFAULT" ++ " " ++ value ++ " " ++ additionalType ++
            (match field.TagSettings.get "COMMENT" with
             | some comment => " COMMENT " ++ comment
             | none => "")
        | none => additionalType
      (field, .ok (sqlType ++ " " ++ additionalType))

/-- The body of the loop of `upperDBName` over `schema.DBNames`, from index `i` on:
`names` are the names still to visit. -/
def upperDBNameLoop (upper : Char → Char) : Nat → List String → Schema → Except String Schema
  | _, [], schema => .ok schema
  | i, dbName :: rest, schema =>
    match schema.FieldsByDBName.get dbName with
    | none => .error nilDeref
    | some field =>
      let dbName := Trim dbName "\""
      let dbName := "\"" ++ ToUpper upper dbName ++ "\""
      if field < schema.Fields.length then
        let schema := { schema with
          DBNames := schema.DBNames.set i dbName
          Fields := schema.Fields.modify (fun f => { f with DBName := dbName }) field
          FieldsByDBName := schema.FieldsByDBName.set dbName field }
        upperDBNameLoop upper (i + 1) rest schema
      else .error nilDeref

/-- The function `upperDBName`. -/
def upperDBName (g : Gorm) (db : DB) : Except String DB :=
  match db.Statement with
  | none => .ok db
  | some stmt =>
    let tableName := Trim stmt.Table "\""
    let tableName := "\"" ++ ToUpper g.upper tableName ++ "\""
    let stmt := { stmt with Table := tableName }
    match stmt.Schema with
    | none => .ok { db with Statement := some stmt }
    | some schema =>
      let schema := { schema with Table := tableName }
      match upperDBNameLoop g.upper 0 schema.DBNames schema with
      | .error p => .error p
      | .ok schema => .ok { db with Statement := some { stmt with Schema := some schema } }

/-- The body of the loop of `transferValType` for one element of `stmt.Vars`: the value
stored at its index afterwards. -/
def transferVal (val : Value) : Except String Value :=
  if isDriverPrimitive val then .ok val
  else
    match kindOf val with
    | .error p => .error p
    | .ok .Int | .ok .Int8 | .ok .Int16 | .ok .Int32 | .ok .Int64 =>
      match reflectInt val with
      | .error p => .error p
      | .ok i => .ok (Value.int .Int64 none i)
    | .ok .Uint | .ok .Uint8 | .ok .Uint16 | .ok .Uint32 | .ok .Uint64 =>
      match reflectUint val with
      | .error p => .error p
      | .ok u => .ok (Value.uint .Uint64 none u)
    | .ok .Float32 | .ok .Float64 =>
      match reflectFloat val with
      | .error p => .error p
      | .ok f => .ok (Value.float .Float64 none f)
    | .ok .String =>
      match reflectString val with
      | .error p => .error p
      | .ok str => .ok (Value.str none str)
    | .ok _ => .ok val

/-- The loop of `transferValType` over `stmt.Vars`. -/
def transferVars : List Value → Except String (List Value)
  | [] => .ok []
  | val :: rest =>
    match transferVal val with
    | .error p => .error p
    | .ok val =>
      match transferVars rest with
      | .error p => .error p
      | .ok rest => .ok (val :: rest)

/-- The function `transferValType`.  `db.Statement.Statement` is the statement itself: the
framework keeps `stmt.DB.Statement == stmt`. -/
def transferValType (db : DB) : Except String DB :=
  match db.Statement with
  | none => .ok db
  | some stmt =>
    match transferVars stmt.Vars with
    | .error p => .error p
    | .ok vars => .ok { db with Statement := some { stmt with Vars := vars } }

/-! ## update.go -/

/-- The loop of `BeforeUpdate` over `destMap`, writing into `newDestMap`. -/
def beforeUpdateLoop (upper : Char → Char) :
    GoMap Value → GoMap Value → Except String (GoMap Value)
  | [], newDestMap => .ok newDestMap
  | (key, val) :: rest, newDestMap =>
    let coerced : Except String Value :=
      if isDriverPrimitive val then .ok val
      else
        match kindOf val with
        | .error p => .error p
        | .ok .Int | .ok .Int8 | .ok .Int16 | .ok .Int32 | .ok .Int64 =>
          match reflectInt val with
          | .error p => .error p
          | .ok i => .ok (Value.int .Int64 none i)
        | .ok .Uint | .ok .Uint8 | .ok .Uint16 | .ok .Uint32 | .ok .Uint64 =>
          match reflectUint val with
          | .error p => .error p
          | .ok u => .ok (Value.uint .Uint64 none u)
        | .ok .Float32 | .ok .Float64 =>
          match reflectFloat val with
          | .error p => .error p
          | .ok f => .ok (Value.float .Float64 none f)
        | .ok .String =>
          match reflectString val with
          | .error p => .error p
          | .ok str => .ok (Value.str none str)
        | .ok _ => .ok val
    match coerced with
    | .error p => .error p
    | .ok val =>
      let key := Trim key "\""
      beforeUpdateLoop upper rest (newDestMap.set ("\"" ++ ToUpper upper key ++ "\"") val)

/-- The callback `BeforeUpdate`. -/
def BeforeUpdate (g : Gorm) (db : DB) : Except String DB :=
  match g.BeforeUpdate db with
  | .error p => .error p
  | .ok db =>
    match db.Statement with
    | none => .ok db
    | some stmt =>
      match stmt.Dest with
      | .map destMap =>
        match beforeUpdateLoop g.upper destMap [] with
        | .error p => .error p
        | .ok newDestMap => .ok { db with Statement := some { stmt with Dest := .map newDestMap } }
      | _ => .ok db

/-- The function `checkMissingWhereConditions`. -/
def checkMissingWhereConditions (db : DB) : Except String DB :=
  if !db.AllowGlobalUpdate && db.Error.isNone then
    match db.Statement with
    | none => .error nilDeref
    | some stmt =>
      let withCondition : Bool :=
        match stmt.Clauses.get "WHERE" with
        | none => false
        | some whereClause =>
          if stmt.Clauses.has "soft_delete_enabled" then
            let exprs :=
              match whereClause.Expression with
              | some (.Where exprs) => exprs
              | _ => []
            decide (exprs.length > 1)
          else true
      if !withCondition then .ok (AddError db (some .ErrMissingWhereClause)) else .ok db
  else .ok db

/-- The function `hasReturning`. -/
def hasReturning (tx : DB) (supportReturning : Bool) : Except String (Bool × Nat) :=
  if supportReturning then
    match tx.Statement with
    | none => .error nilDeref
    | some stmt =>
      match stmt.Clauses.get "RETURNING" with
      | some c =>
        let columns :=
          match c.Expression with
          | some (.Returning columns) => columns
          | _ => []
        if columns.length = 0 ∨ (columns.length = 1 ∧ (columns.map Column.Name).head? = some "*")
        then .ok (true, 0)
        else .ok (true, ScanUpdate)
      | none => .ok (false, 0)
  else .ok (false, 0)

/-- Where the first part of `Update` or `Delete` ends: the callback has returned, or it
has reached the call of `checkMissingWhereConditions`. -/
inductive Reached
  | returned (db : DB)
  | guard (db : DB)
  deriving DecidableEq, Repr

/-- The calls `db.Statement.AddClause(c)` for the clauses of the schema, in order. -/
def addSchemaClauses (g : Gorm) : List String → DB → Except String DB
  | [], db => .ok db
  | c :: rest, db =>
    match runStep (g.AddClause (.ofSchema c)) db with
    | .error p => .error p
    | .ok db => addSchemaClauses g rest db

/-- The last two steps before the guard, in `Update` (lines 68 and 69) and in `Delete`
(lines 83 and 84): `db.Statement.Build(db.Statement.BuildClauses...)` and
`transferValType(db)`. -/
def buildSQL (g : Gorm) (db : DB) : Except String Reached :=
  match runStep g.Build db with
  | .error p => .error p
  | .ok db =>
    match transferValType db with
    | .error p => .error p
    | .ok db => .ok (.guard db)

/-- The callback returned by `Update(config)`, up to the call of
`checkMissingWhereConditions` (lines 49 to 70). -/
def updateBuild (g : Gorm) (db : DB) : Except String Reached :=
  if db.Error.isSome then .ok (.returned db)
  else
    match db.Statement with
    | none => .error nilDeref
    | some stmt =>
      match (match stmt.Schema with
        | some schema => addSchemaClauses g schema.UpdateClauses db
        | none => .ok db) with
      | .error p => .error p
      | .ok db =>
        match db.Statement with
        | none => .error nilDeref
        | some stmt =>
          if stmt.SQL.length = 0 then
            match runStep (g.AddClauseIfNotExists .Update) db with
            | .error p => .error p
            | .ok db =>
              match db.Statement with
              | none => .error nilDeref
              | some stmt =>
                match g.ConvertToAssignments stmt with
                | .error p => .error p
                | .ok (set, stmt, errs) =>
                  let db := addErrors { db with Statement := some stmt } errs
                  if set.length ≠ 0 then
                    match runStep (g.AddClause (.Set set)) db with
                    | .error p => .error p
                    | .ok db => buildSQL g db
                  else if !(stmt.Clauses.has "SET") then .ok (.returned db)
                  else buildSQL g db
          else .ok (.guard db)

/-- The callback returned by `Update(config)`, from the call of
`checkMissingWhereConditions` on (lines 72 to 90). -/
def updateExec (g : Gorm) (supportReturning : Bool) (db : DB) : Except String DB :=
  match checkMissingWhereConditions db with
  | .error p => .error p
  | .ok db =>
    if !db.DryRun && db.Error.isNone then
      match db.Statement, hasReturning db supportReturning with
      | none, _ => .error nilDeref
      | _, .error p => .error p
      | some stmt, .ok (true, mode) =>
        let db := { db with PoolCalls := db.PoolCalls ++ [.QueryContext stmt.SQL stmt.Vars] }
        match g.QueryContext stmt.SQL stmt.Vars with
        | .err e => .ok (AddError db (some e))
        | .ok rows =>
          let dest := stmt.Dest
          if stmt.ReflectValue.CanAddr then
            let db := { db with Statement := some { stmt with Dest := stmt.ReflectValue.Addr } }
            match g.Scan rows db mode with
            | .error p => .error p
            | .ok db =>
              match db.Statement with
              | none => .error nilDeref
              | some stmt =>
                let db := { db with Statement := some { stmt with Dest := dest } }
                .ok (AddError db (g.RowsClose rows))
          else .error "reflect.Value.Addr of unaddressable value"
      | some stmt, .ok (false, _) =>
        let db := { db with PoolCalls := db.PoolCalls ++ [.ExecContext stmt.SQL stmt.Vars] }
        match g.ExecContext stmt.SQL stmt.Vars with
        | .err e => .ok (AddError db (some e))
        | .ok rowsAffected => .ok { db with RowsAffected := rowsAffected }
    else .ok db

/-- The callback returned by `Update(config)`. -/
def Update (g : Gorm) (config : CallbacksConfig) (db : DB) : Except String DB :=
  let supportReturning := config.UpdateClauses.contains "RETURNING"
  match updateBuild g db with
  | .error p => .error p
  | .ok (.returned db) => .ok db
  | .ok (.guard db) => updateExec g supportReturning db

/-! ## delete.go -/

/-- The loop of `BeforeDelete` over `destMap`, writing into `newDestMap`. -/
def beforeDeleteLoop (upper : Char → Char) :
    GoMap Value → GoMap Value → Except String (GoMap Value)
  | [], newDestMap => .ok newDestMap
  | (key, val) :: rest, newDestMap =>
    let coerced : Except String Value :=
      if isDriverPrimitive val then .ok val
      else
        match kindOf val with
        | .error p => .error p
        | .ok .Int | .ok .Int8 | .ok .Int16 | .ok .Int32 | .ok .Int64 =>
          match reflectInt val with
          | .error p => .error p
          | .ok i => .ok (Value.int .Int64 none i)
        | .ok .Uint | .ok .Uint8 | .ok .Uint16 | .ok .Uint32 | .ok .Uint64 =>
          match reflectUint val with
          | .error p => .error p
          | .ok u => .ok (Value.uint .Uint64 none u)
        | .ok .Float32 | .ok .Float64 =>
          match reflectFloat val with
          | .error p => .error p
          | .ok f => .ok (Value.float .Float64 none f)
        | .ok .String =>
          match reflectString val with
          | .error p => .error p
          | .ok str => .ok (Value.str none str)
        | .ok _ => .ok val
    match coerced with
    | .error p => .error p
    | .ok val =>
      let key := Trim key "\""
      beforeDeleteLoop upper rest (newDestMap.set ("\"" ++ ToUpper upper key ++ "\"") val)

/-- The callback `BeforeDelete`. -/
def BeforeDelete (g : Gorm) (db : DB) : Except String DB :=
  match g.BeforeDelete db with
  | .error p => .error p
  | .ok db =>
    match db.Statement with
    | none => .ok db
    | some stmt =>
      match stmt.Dest with
      | .map destMap =>
        match beforeDeleteLoop g.upper destMap [] with
        | .error p => .error p
        | .ok newDestMap => .ok { db with Statement := some { stmt with Dest := .map newDestMap } }
      | _ => .ok db

/-- The comparison `a != b` of two interface values: two maps of the same type cannot be
compared, the comparison panics. -/
def destNe (a b : Dest) : Except String Bool :=
  match a, b with
  | .map _, .map _ => .error "runtime error: comparing uncomparable type map[string]interface {}"
  | a, b => .ok (decide (a ≠ b))

/-- The clauses `Delete` adds from the primary key values (lines 63 to 79), when the
statement has a schema. -/
def deleteConditions (g : Gorm) (db : DB) : Except String DB :=
  match db.Statement with
  | none => .error nilDeref
  | some stmt =>
    match stmt.Schema with
    | none => .ok db
    | some _ =>
      let (column, values) := g.PrimaryValuesOfReflectValue stmt
      match (if values.length > 0 then runStep (g.AddClause (.WhereIN column values)) db
        else .ok db) with
      | .error p => .error p
      | .ok db =>
        match db.Statement with
        | none => .error nilDeref
        | some stmt =>
          match (if stmt.ReflectValue.CanAddr then destNe stmt.Dest stmt.Model
            else .ok false) with
          | .error p => .error p
          | .ok differ =>
            if stmt.ReflectValue.CanAddr ∧ differ ∧ stmt.Model ≠ Dest.nil then
              let (column, values) := g.PrimaryValuesOfModel stmt
              if values.length > 0 then runStep (g.AddClause (.WhereIN column values)) db
              else .ok db
            else .ok db

/-- The callback returned by `Delete(config)`, up to the call of
`checkMissingWhereConditions` (lines 49 to 85). -/
def deleteBuild (g : Gorm) (db : DB) : Except String Reached :=
  if db.Error.isSome then .ok (.returned db)
  else
    match db.Statement with
    | none => .error nilDeref
    | some stmt =>
      match (match stmt.Schema with
        | some schema => addSchemaClauses g schema.DeleteClauses db
        | none => .ok db) with
      | .error p => .error p
      | .ok db =>
        match db.Statement with
        | none => .error nilDeref
        | some stmt =>
          if stmt.SQL.length = 0 then
            match runStep (g.AddClauseIfNotExists .Delete) db with
            | .error p => .error p
            | .ok db =>
              match deleteConditions g db with
              | .error p => .error p
              | .ok db =>
                match runStep (g.AddClauseIfNotExists .From) db with
                | .error p => .error p
                | .ok db => buildSQL g db
          else .ok (.guard db)

/-- The callback returned by `Delete(config)`, from the call of
`checkMissingWhereConditions` on (lines 87 to 104). -/
def deleteExec (g : Gorm) (supportReturning : Bool) (db : DB) : Except String DB :=
  match checkMissingWhereConditions db with
  | .error p => .error p
  | .ok db =>
    if !db.DryRun && db.Error.isNone then
      match db.Statement, hasReturning db supportReturning with
      | none, _ => .error nilDeref
      | _, .error p => .error p
      | some stmt, .ok (false, _) =>
        let db := { db with PoolCalls := db.PoolCalls ++ [.ExecContext stmt.SQL stmt.Vars] }
        match g.ExecContext stmt.SQL stmt.Vars with
        | .err e => .ok (AddError db (some e))
        | .ok rowsAffected => .ok { db with RowsAffected := rowsAffected }
      | some stmt, .ok (true, mode) =>
        let db := { db with PoolCalls := db.PoolCalls ++ [.QueryContext stmt.SQL stmt.Vars] }
        match g.QueryContext stmt.SQL stmt.Vars with
        | .err e => .ok (AddError db (some e))
        | .ok rows =>
          match g.Scan rows db mode with
          | .error p => .error p
          | .ok db => .ok (AddError db (g.RowsClose rows))
    else .ok db

/-- The callback returned by `Delete(config)`. -/
def Delete (g : Gorm) (config : CallbacksConfig) (db : DB) : Except String DB :=
  let supportReturning := config.DeleteClauses.contains "RETURNING"
  match deleteBuild g db with
  | .error p => .error p
  | .ok (.returned db) => .ok db
  | .ok (.guard db) => deleteExec g supportReturning db

/-! ## query.go and raw.go -/

/-- The callback `Query`. -/
def Query (g : Gorm) (db : DB) : Except String DB := do
  if db.Error.isSome then return db
  let db ← g.BuildQuerySQL db
  let db ← transferValType db
  if !db.DryRun && db.Error.isNone then
    let stmt ← match db.Statement with
      | none => throw nilDeref
      | some stmt => pure stmt
    let db := { db with PoolCalls := db.PoolCalls ++ [.QueryContext stmt.SQL stmt.Vars] }
    match g.QueryContext stmt.SQL stmt.Vars with
    | .err e => return AddError db (some e)
    | .ok rows =>
      let db ← g.Scan rows db 0
      return AddError db (g.RowsClose rows)
  else
    return db

/-- The callback `Raw`. -/
def Raw (g : Gorm) (db : DB) : Except String DB := do
  let db ← transferValType db
  g.RawExec db

/-- The callbacks configuration `Initialize` hands to `Update` and `Delete`. -/
def callbacksConfig : CallbacksConfig :=
  { CreateClauses := ["INSERT", "VALUES", "ON CONFLICT"]
    QueryClauses := ["SELECT", "FROM", "WHERE", "GROUP BY", "LIMIT", "ORDER BY", "FOR"]
    UpdateClauses := ["UPDATE", "SET", "WHERE"]
    DeleteClauses := ["DELETE", "FROM", "WHERE"] }

/-! ## The properties, in the words of the specification -/

/-- The identifier rewrite `norm(s) = '"' + ToUpper(Trim(s, '"')) + '"'`. -/
def norm (upper : Char → Char) (s : String) : String :=
  "\"" ++ ToUpper upper (Trim s "\"") ++ "\""

/-- The number of expressions a WHERE clause holds: an expression that is not a
`clause.Where` counts as zero. -/
def whereCount (c : Clause) : Nat :=
  match c.Expression with
  | some (.Where exprs) => exprs.length
  | _ => 0

/-- The statement lacks a condition: it has no "WHERE" clause, or it has a
"soft_delete_enabled" clause and its WHERE clause holds at most one expression. -/
def MissingWhere (stmt : Statement) : Prop :=
  stmt.Clauses.get "WHERE" = none ∨
    (stmt.Clauses.has "soft_delete_enabled" = true ∧
      ∃ w, stmt.Clauses.get "WHERE" = some w ∧ whereCount w ≤ 1)

/-- The value is of a user-defined type whose kind is a signed integer, unsigned
integer, float or string kind. -/
def IsNamedPrimitiveKind : Value → Prop
  | .int _ (some _) _ => True
  | .uint _ (some _) _ => True
  | .float _ (some _) _ => True
  | .str (some _) _ => True
  | _ => False

/-- The kind of the value is a signed-integer, unsigned-integer, float or string kind. -/
def HasCoercedKind : Value → Prop
  | .int _ _ _ => True
  | .uint _ _ _ => True
  | .float _ _ _ => True
  | .str _ _ => True
  | _ => False

/-- The coercion of a bound parameter: `new` is `orig` unchanged when the dynamic type of
`orig` is one of the predeclared numeric or string types, an `int64`, `uint64`, `float64` or
`string` of the same value when `orig` is of a defined type of signed-integer,
unsigned-integer, float or string kind. -/
def Coerced (orig new : Value) : Prop :=
  match orig with
  | .int _ none _ => new = orig
  | .uint _ none _ => new = orig
  | .float _ none _ => new = orig
  | .str none _ => new = orig
  | .int _ (some _) v => new = .int .Int64 none v
  | .uint _ (some _) v => new = .uint .Uint64 none v
  | .float _ (some _) v => new = .float .Float64 none v
  | .str (some _) s => new = .str none s
  | _ => True

/-- The two dbs agree on what no step before the guard may touch: the calls issued on the
connection pool, `RowsAffected`, `AllowGlobalUpdate` and `DryRun`. -/
def SameFrame (a b : DB) : Prop :=
  a.PoolCalls = b.PoolCalls ∧ a.RowsAffected = b.RowsAffected ∧
    a.AllowGlobalUpdate = b.AllowGlobalUpdate ∧ a.DryRun = b.DryRun

/-- The text `RewriteLimit` is to append for the limit `n`. -/
def limitText (hasWhere : Bool) (n : Int) : String :=
  (if hasWhere then "" else "WHERE 1 = 1 ") ++ (" AND ROWNUM <= " ++ Itoa n)

/-- The field is a string column: its `DataType` is `schema.String` or "VARCHAR2". -/
def IsStringColumn (field : Field) : Prop :=
  field.DataType = schemaString ∨ field.DataType = "VARCHAR2"

/-- The effective size `s` of a string column: `field.Size` when it is non-zero,
otherwise `DefaultStringSize` when that is positive, otherwise 191 when the field is a
primary key, has a default value, or has a non-empty INDEX or UNIQUE tag, otherwise 0. -/
def effectiveSize (d : Config) (field : Field) : Int :=
  if field.Size ≠ 0 then field.Size
  else if d.DefaultStringSize > 0 then (d.DefaultStringSize : Int)
  else if field.PrimaryKey = true ∨ field.HasDefaultValue = true
      ∨ (field.TagSettings.get "INDEX").getD "" ≠ ""
      ∨ (field.TagSettings.get "UNIQUE").getD "" ≠ "" then 191
  else 0

/-- The column type of a string column of effective size `s`. -/
def stringColumnType (s : Int) : String :=
  if s ≥ 2000 then "CLOB" else "VARCHAR2(" ++ Itoa s ++ ")"

/-- The column type of a Bool, Int, Uint or Float field, before the identity suffix. -/
def numericColumnType (field : Field) : String :=
  if field.DataType = schemaFloat then "FLOAT"
  else if field.Size ≤ 8 then "SMALLINT"
  else "INTEGER"

/-- The AUTOINCREMENT tag is present with a truthy value. -/
def AutoIncrement (g : Gorm) (field : Field) : Prop :=
  ∃ val, field.TagSettings.get "AUTOINCREMENT" = some val ∧ g.CheckTruth val = true

/-- The step of the framework's `AddVar` for a plain value: the value is appended to
`Vars`, then `BindVarTo` writes its placeholder, here to a writer of its own so that the
placeholder can be read off. -/
def addVar (stmt : Statement) (v : Value) : Statement × String :=
  let stmt := { stmt with Vars := stmt.Vars ++ [v] }
  (stmt, (BindVarTo (.ofOther "") stmt v).text)

/-- Bind the values in order: the statement afterwards and the placeholders written. -/
def bindVars : List Value → Statement → Statement × List String
  | [], stmt => (stmt, [])
  | v :: rest, stmt =>
    let (stmt, placeholder) := addVar stmt v
    let (stmt, placeholders) := bindVars rest stmt
    (stmt, placeholder :: placeholders)

/-- The table name and the column names of the statement, for comparing two runs of
`upperDBName`. -/
def dbNames (db : DB) : Option (String × Option (List String)) :=
  db.Statement.map (fun stmt => (stmt.Table, stmt.Schema.map (fun schema => schema.DBNames)))

/-- The name has a field in `FieldsByDBName`: the map holds a pointer to a field for it. -/
def HasField (schema : Schema) (name : String) : Prop :=
  ∃ field, schema.FieldsByDBName.get name = some field ∧ field < schema.Fields.length

/-- Every name in `DBNames` has its field in `FieldsByDBName`, as the framework builds
a schema. -/
def SchemaConsistent (schema : Schema) : Prop :=
  ∀ name ∈ schema.DBNames, HasField schema name

/-! ### The properties can be evaluated -/

instance (stmt : Statement) : Decidable (MissingWhere stmt) :=
  decidable_of_iff
    (stmt.Clauses.get "WHERE" = none ∨
      (stmt.Clauses.has "soft_delete_enabled" = true ∧
        (stmt.Clauses.get "WHERE").any (fun w => decide (whereCount w ≤ 1)) = true))
    (by unfold MissingWhere; cases stmt.Clauses.get "WHERE" <;> simp)

instance : DecidablePred IsNamedPrimitiveKind := fun v => by
  cases v with
  | nil => exact isFalse (fun h => h)
  | int k n i => cases n <;> unfold IsNamedPrimitiveKind <;> infer_instance
  | uint k n i => cases n <;> unfold IsNamedPrimitiveKind <;> infer_instance
  | float k n f => cases n <;> unfold IsNamedPrimitiveKind <;> infer_instance
  | str n s => cases n <;> unfold IsNamedPrimitiveKind <;> infer_instance
  | other k n r => exact isFalse (fun h => h)

instance : DecidablePred HasCoercedKind := fun v => by
  cases v <;> unfold HasCoercedKind <;> infer_instance

instance (orig new : Value) : Decidable (Coerced orig new) := by
  cases orig with
  | nil => exact isTrue trivial
  | int k n i => cases n <;> unfold Coerced <;> infer_instance
  | uint k n i => cases n <;> unfold Coerced <;> infer_instance
  | float k n f => cases n <;> unfold Coerced <;> infer_instance
  | str n s => cases n <;> unfold Coerced <;> infer_instance
  | other k n r => exact isTrue trivial

instance (a b : DB) : Decidable (SameFrame a b) := by
  unfold SameFrame; infer_instance

instance (field : Field) : Decidable (IsStringColumn field) := by
  unfold IsStringColumn; infer_instance

instance (g : Gorm) (field : Field) : Decidable (AutoIncrement g field) :=
  decidable_of_iff ((field.TagSettings.get "AUTOINCREMENT").any g.CheckTruth = true)
    (by unfold AutoIncrement; cases field.TagSettings.get "AUTOINCREMENT" <;> simp)

instance (schema : Schema) (name : String) : Decidable (HasField schema name) :=
  decidable_of_iff
    ((schema.FieldsByDBName.get name).any (fun f => decide (f < schema.Fields.length)) = true)
    (by unfold HasField; cases schema.FieldsByDBName.get name <;> simp)

instance (schema : Schema) : Decidable (SchemaConsistent schema) := by
  unfold SchemaConsistent; infer_instance

/-! ## Sample values -/

/-- A framework with steps that succeed: clauses are stored by name, the assignments of a
map destination are its entries, and building the statement writes a fixed text. -/
def sampleGorm : Gorm :=
  { upper := asciiUpper
    EqualFold := fun a b => a.data.map Char.toLower == b.data.map Char.toLower
    CheckTruth := fun val => val != "" && val.data.map Char.toLower != "false".data
    BeforeUpdate := fun db => .ok db
    BeforeDelete := fun db => .ok db
    AddClause := fun c stmt =>
      match c with
      | .Set _ => .ok ({ stmt with Clauses := stmt.Clauses.set "SET" ⟨"SET", some (.Other "SET")⟩ }, [])
      | .WhereIN column _ =>
        .ok ({ stmt with Clauses := stmt.Clauses.set "WHERE" ⟨"WHERE", some (.Where [column])⟩ }, [])
      | _ => .ok (stmt, [])
    AddClauseIfNotExists := fun c stmt =>
      match c with
      | .Update => .ok ({ stmt with Clauses := stmt.Clauses.set "UPDATE" ⟨"UPDATE", none⟩ }, [])
      | .Delete => .ok ({ stmt with Clauses := stmt.Clauses.set "DELETE" ⟨"DELETE", none⟩ }, [])
      | .From => .ok ({ stmt with Clauses := stmt.Clauses.set "FROM" ⟨"FROM", none⟩ }, [])
      | _ => .ok (stmt, [])
    ConvertToAssignments := fun stmt =>
      match stmt.Dest with
      | .map m => .ok (m, stmt, [])
      | _ => .ok ([], stmt, [Error.ErrInvalidData])
    Build := fun stmt => .ok ({ stmt with SQL := stmt.SQL ++ "SQL" }, [])
    PrimaryValuesOfReflectValue := fun _ => ("ID", [])
    PrimaryValuesOfModel := fun _ => ("ID", [])
    BuildQuerySQL := fun db => .ok db
    RawExec := fun db => .ok db
    ExecContext := fun _ _ => .ok 1
    QueryContext := fun _ _ => .ok 0
    Scan := fun _ db _ => .ok db
    RowsClose := fun _ => none
    sqlOpen := fun _ _ => (some 0, none)
    Replace := fun _ _ => none }

/-- A statement on table `users` with nothing built yet. -/
def sampleStmt : Statement :=
  { Table := "users"
    Model := .pointer 1
    Dest := .map [("name", .str (some "Name") "ann"), ("age", .int .Int8 (some "Age") 7)]
    ReflectValue := { CanAddr := false, Addr := .nil }
    Clauses := []
    BuildClauses := ["UPDATE", "SET", "WHERE"]
    SQL := ""
    Vars := []
    Schema := none }

/-- A db about to run an update with no condition. -/
def sampleDB : DB :=
  { Statement := some sampleStmt
    Error := none
    AllowGlobalUpdate := false
    DryRun := false
    RowsAffected := 0
    PoolCalls := [] }

/-- A db about to run an update whose destination is the number 5, neither a struct nor
a map, on a statement that already carries a SET clause, as after
`db.Model(&user).Clauses(clause.Set{...}).Updates(5)`. -/
def sampleInvalidDB : DB :=
  { sampleDB with
    Statement := some { sampleStmt with
      Dest := .other "5"
      Clauses := [("SET", ⟨"SET", some (.Other "SET")⟩)] } }

/-- A string field without a size. -/
def sampleStringField : Field :=
  { DBName := "name"
    DataType := schemaString
    Size := 0
    PrimaryKey := false
    HasDefaultValue := false
    NotNull := false
    TagSettings := []
    FieldTypeName := "string"
    FieldTypeString := "string" }

/-- A configuration as `Open` builds it. -/
def sampleConfig : Config :=
  { DriverName := "", DSN := "oracle://localhost", Conn := none, DefaultStringSize := 0 }

/-! ## Lemmas on maps and strings -/

theorem GoMap.delete_of_not_has {β : Type} (m : GoMap β) (k : String)
    (h : m.has k = false) : m.delete k = m := by
  induction m with
  | nil => rfl
  | cons e rest ih =>
    obtain ⟨k', v⟩ := e
    simp only [GoMap.has, GoMap.get] at h
    by_cases hk : k' = k
    · simp [hk] at h
    · simp only [hk, if_false] at h
      have ih' := ih (by simpa [GoMap.has] using h)
      simp [GoMap.delete, hk, ih']

theorem GoMap.get_delete_ne {β : Type} (m : GoMap β) (k k' : String) (h : k' ≠ k) :
    (m.delete k).get k' = m.get k' := by
  induction m with
  | nil => rfl
  | cons e rest ih =>
    obtain ⟨k0, v⟩ := e
    by_cases hk : k0 = k
    · subst hk
      have : k0 ≠ k' := fun e => h e.symm
      simp [GoMap.get, GoMap.delete, this, ih]
    · simp [hk, GoMap.get, GoMap.delete, ih]

/-! ## C1 -/

/-- C1: `checkMissingWhereConditions` raises the missing-WHERE error exactly when it
should.  For a db with a statement, with `AllowGlobalUpdate = false` and no error on
record, the call returns; afterwards the error is `gorm.ErrMissingWhereClause` if and only
if the statement has no "WHERE" clause, or has a "soft_delete_enabled" clause and a WHERE
clause of at most one expression; then nothing but the error field has changed, and in
every other case nothing has changed at all.  With `AllowGlobalUpdate = true` or an
error on record the db is left as it was. -/
theorem C1_checkMissingWhereConditions (db : DB) (stmt : Statement)
    (hs : db.Statement = some stmt) :
    (db.AllowGlobalUpdate = false → db.Error = none →
      ∃ db', checkMissingWhereConditions db = .ok db' ∧
        (db'.Error = some Error.ErrMissingWhereClause ↔ MissingWhere stmt) ∧
        (MissingWhere stmt → db' = { db with Error := some Error.ErrMissingWhereClause }) ∧
        (¬ MissingWhere stmt → db' = db) ∧
        db'.Statement = db.Statement) ∧
    (db.AllowGlobalUpdate = true ∨ db.Error ≠ none →
      checkMissingWhereConditions db = .ok db) := by
  refine ⟨fun ha he => ?_, fun h => ?_⟩
  · have hcond : (!db.AllowGlobalUpdate && db.Error.isNone) = true := by simp [ha, he]
    unfold checkMissingWhereConditions
    rw [if_pos hcond, hs]
    simp only [MissingWhere, whereCount]
    cases hw : stmt.Clauses.get "WHERE" with
    | none => simp [AddError, he, hs]
    | some w =>
      cases hsd : stmt.Clauses.has "soft_delete_enabled" with
      | false => simp [he, hs]
      | true =>
        by_cases hlen : (match w.Expression with
            | some (Expression.Where exprs) => exprs
            | _ => []).length > 1
        · have hn : ¬ (match w.Expression with
              | some (Expression.Where exprs) => exprs.length
              | _ => 0) ≤ 1 := by
            cases hx : w.Expression with
            | none => simp [hx] at hlen
            | some e => cases e <;> simp_all
          simp [hlen, hn, he, hs]
        · have hn : (match w.Expression with
              | some (Expression.Where exprs) => exprs.length
              | _ => 0) ≤ 1 := by
            cases hx : w.Expression with
            | none => simp
            | some e => cases e <;> simp_all
          simp [hlen, hn, AddError, he, hs]
  · have hcond : ¬ (!db.AllowGlobalUpdate && db.Error.isNone) = true := by
      rcases h with h | h
      · simp [h]
      · cases he : db.Error with
        | none => exact absurd he h
        | some e => simp
    unfold checkMissingWhereConditions
    rw [if_neg hcond]

/-- A witness of C1: the sample db has a statement without a WHERE clause, forbids global
updates and has no error on record; the call records the missing-WHERE error and
changes nothing else. -/
theorem C1_checkMissingWhereConditions_witness :
    checkMissingWhereConditions sampleDB
      = .ok { sampleDB with Error := some Error.ErrMissingWhereClause } := by
  obtain ⟨db', h, _, hm, _, _⟩ :=
    (C1_checkMissingWhereConditions sampleDB sampleStmt rfl).1 rfl rfl
  rw [h, hm (Or.inl rfl)]

/-! ## C5 -/

/-- C5: `RewriteLimit` turns a LIMIT clause into a ROWNUM predicate and does not support
OFFSET.  For a clause whose expression is a `clause.Limit` with limit `n` and offset `o`,
built on a statement, the text appended to the SQL of the statement is exactly
" AND ROWNUM <= " followed by the decimal rendering of `n`, preceded by "WHERE 1 = 1 " if
and only if the statement has no "WHERE" clause, and nothing else in the statement
changes; the call completes normally when `o <= 0` and panics with "Offset not supported."
when `o > 0`.  When the expression is not a `clause.Limit`, or the builder is not a
statement, nothing is written. -/
theorem C5_RewriteLimit :
    (∀ (c : Clause) (stmt : Statement) (n o : Int), c.Expression = some (.Limit n o) →
      (RewriteLimit c (.ofStatement stmt)).1 =
          .ofStatement { stmt with SQL := stmt.SQL ++ limitText (stmt.Clauses.has "WHERE") n } ∧
        (limitText true n = " AND ROWNUM <= " ++ Itoa n) ∧
        (limitText false n = "WHERE 1 = 1 " ++ (" AND ROWNUM <= " ++ Itoa n)) ∧
        (o ≤ 0 → (RewriteLimit c (.ofStatement stmt)).2 = none) ∧
        (o > 0 → (RewriteLimit c (.ofStatement stmt)).2 = some "Offset not supported.")) ∧
    (∀ (c : Clause) (builder : Builder), (∀ n o, c.Expression ≠ some (.Limit n o)) →
      RewriteLimit c builder = (builder, none)) ∧
    (∀ (c : Clause) (written : String),
      RewriteLimit c (.ofOther written) = (.ofOther written, none)) := by
  refine ⟨fun c stmt n o hc => ⟨?_, ?_, ?_, ?_, ?_⟩, fun c builder hc => ?_, fun c written => ?_⟩
  · unfold RewriteLimit
    rw [hc]
    cases hw : stmt.Clauses.has "WHERE" <;>
      by_cases ho : o > 0 <;>
      simp only [hw, ho, Builder.WriteString, limitText, String.append_assoc, Bool.not_false,
        Bool.not_true, if_true, if_false, Bool.false_eq_true, String.empty_append]
  · simp [limitText]
  · simp [limitText]
  · intro ho
    have : ¬ o > 0 := by omega
    unfold RewriteLimit
    rw [hc]
    simp [this]
  · intro ho
    unfold RewriteLimit
    rw [hc]
    simp [ho]
  · unfold RewriteLimit
    cases hx : c.Expression with
    | none => rfl
    | some e =>
      cases e with
      | Limit n o => exact absurd hx (hc n o)
      | _ => rfl
  · unfold RewriteLimit
    cases hx : c.Expression with
    | none => rfl
    | some e => cases e <;> rfl

/-- A witness of C5: a limit of 10 with no offset on the sample statement, which has no
WHERE clause. -/
theorem C5_RewriteLimit_witness :
    RewriteLimit ⟨"LIMIT", some (.Limit 10 0)⟩ (.ofStatement sampleStmt) =
      (.ofStatement { sampleStmt with SQL := "WHERE 1 = 1  AND ROWNUM <= 10" }, none) := by
  have h := (C5_RewriteLimit.1 ⟨"LIMIT", some (.Limit 10 0)⟩ sampleStmt 10 0 rfl)
  refine Prod.ext ?_ ?_
  · rw [h.1]; decide
  · exact h.2.2.2.1 (by decide)

/-! ## C7 and C6 -/

theorem dataTypeOf_field (g : Gorm) (d : Config) (field : Field) :
    (DataTypeOf g d field).1 =
      { field with TagSettings := field.TagSettings.delete "RESTRICT" } := by
  have hf : (if field.TagSettings.has "RESTRICT" = true then
        { field with TagSettings := field.TagSettings.delete "RESTRICT" } else field) =
      { field with TagSettings := field.TagSettings.delete "RESTRICT" } := by
    cases h : field.TagSettings.has "RESTRICT" with
    | true => simp
    | false => simp [GoMap.delete_of_not_has _ _ h]
  unfold DataTypeOf
  simp only [hf]
  repeat' split
  all_goals rfl

theorem dataTypeOf_restrict (field : Field) :
    (if field.TagSettings.has "RESTRICT" = true then
        { field with TagSettings := field.TagSettings.delete "RESTRICT" } else field) =
      { field with TagSettings := field.TagSettings.delete "RESTRICT" } := by
  cases h : field.TagSettings.has "RESTRICT" with
  | true => simp
  | false => simp [GoMap.delete_of_not_has _ _ h]

theorem dataTypeOf_numeric (g : Gorm) (d : Config) (field : Field)
    (h : field.DataType = schemaBool ∨ field.DataType = schemaInt ∨ field.DataType = schemaUint
      ∨ field.DataType = schemaFloat) :
    (DataTypeOf g d field).2 = .ok
      (match field.TagSettings.get "AUTOINCREMENT" with
       | some val =>
         if g.CheckTruth val = true then
           numericColumnType field ++ " GENERATED BY DEFAULT AS IDENTITY"
         else numericColumnType field
       | none => numericColumnType field) := by
  have hauto : (field.TagSettings.delete "RESTRICT").get "AUTOINCREMENT"
      = field.TagSettings.get "AUTOINCREMENT" := GoMap.get_delete_ne _ _ _ (by decide)
  unfold DataTypeOf
  simp only [dataTypeOf_restrict, hauto, if_pos h, numericColumnType]

theorem dataTypeOf_time (g : Gorm) (d : Config) (field : Field)
    (h : field.DataType = schemaTime) :
    (DataTypeOf g d field).2 = .ok
      (if field.NotNull = true ∨ field.PrimaryKey = true then
        "TIMESTAMP WITH TIME ZONE" ++ " NOT NULL" else "TIMESTAMP WITH TIME ZONE") := by
  have h1 : ¬ (field.DataType = schemaBool ∨ field.DataType = schemaInt
      ∨ field.DataType = schemaUint ∨ field.DataType = schemaFloat) := by
    rw [h]; decide
  have h2 : ¬ (field.DataType = schemaString ∨ field.DataType = "VARCHAR2") := by
    rw [h]; decide
  unfold DataTypeOf
  simp only [dataTypeOf_restrict, if_neg h1, if_neg h2, if_pos h]

theorem dataTypeOf_bytes (g : Gorm) (d : Config) (field : Field)
    (h : field.DataType = schemaBytes) :
    (DataTypeOf g d field).2 = .ok "BLOB" := by
  have h1 : ¬ (field.DataType = schemaBool ∨ field.DataType = schemaInt
      ∨ field.DataType = schemaUint ∨ field.DataType = schemaFloat) := by
    rw [h]; decide
  have h2 : ¬ (field.DataType = schemaString ∨ field.DataType = "VARCHAR2") := by
    rw [h]; decide
  have h3 : ¬ field.DataType = schemaTime := by
    rw [h]; decide
  unfold DataTypeOf
  simp only [dataTypeOf_restrict, if_neg h1, if_neg h2, if_neg h3, if_pos h]

/-- C7: `DataTypeOf` maps the non-string built-in column types by a fixed table.
(a) `Float` gives "FLOAT" whatever the size; (b) `Bool`, `Int` or `Uint` gives
"SMALLINT" when `Size <= 8` and "INTEGER" otherwise; (c) in these cases the suffix
" GENERATED BY DEFAULT AS IDENTITY" is appended if and only if the AUTOINCREMENT tag is
present with a truthy value; (d) `Time` gives "TIMESTAMP WITH TIME ZONE", with " NOT NULL"
appended if and only if the field is `NotNull` or a primary key; (e) `Bytes` gives exactly
"BLOB".  The call changes nothing in the field except removing the RESTRICT key from
`TagSettings`. -/
theorem C7_DataTypeOf_builtin (g : Gorm) (d : Config) (field : Field) :
    (field.DataType = schemaFloat →
      (AutoIncrement g field →
        (DataTypeOf g d field).2 = .ok ("FLOAT" ++ " GENERATED BY DEFAULT AS IDENTITY")) ∧
      (¬ AutoIncrement g field → (DataTypeOf g d field).2 = .ok "FLOAT")) ∧
    (field.DataType = schemaBool ∨ field.DataType = schemaInt ∨ field.DataType = schemaUint →
      (field.Size ≤ 8 → AutoIncrement g field →
        (DataTypeOf g d field).2 = .ok ("SMALLINT" ++ " GENERATED BY DEFAULT AS IDENTITY")) ∧
      (field.Size ≤ 8 → ¬ AutoIncrement g field →
        (DataTypeOf g d field).2 = .ok "SMALLINT") ∧
      (¬ field.Size ≤ 8 → AutoIncrement g field →
        (DataTypeOf g d field).2 = .ok ("INTEGER" ++ " GENERATED BY DEFAULT AS IDENTITY")) ∧
      (¬ field.Size ≤ 8 → ¬ AutoIncrement g field →
        (DataTypeOf g d field).2 = .ok "INTEGER")) ∧
    (field.DataType = schemaTime →
      (field.NotNull = true ∨ field.PrimaryKey = true →
        (DataTypeOf g d field).2 = .ok ("TIMESTAMP WITH TIME ZONE" ++ " NOT NULL")) ∧
      (¬ (field.NotNull = true ∨ field.PrimaryKey = true) →
        (DataTypeOf g d field).2 = .ok "TIMESTAMP WITH TIME ZONE")) ∧
    (field.DataType = schemaBytes → (DataTypeOf g d field).2 = .ok "BLOB") ∧
    (DataTypeOf g d field).1 =
      { field with TagSettings := field.TagSettings.delete "RESTRICT" } := by
  refine ⟨fun h => ?_, fun h => ?_, fun h => ?_, dataTypeOf_bytes g d field, dataTypeOf_field g d field⟩
  · have hn := dataTypeOf_numeric g d field (Or.inr (Or.inr (Or.inr h)))
    have hc : numericColumnType field = "FLOAT" := by simp [numericColumnType, h]
    rw [hc] at hn
    refine ⟨fun ⟨val, hv, ht⟩ => ?_, fun ha => ?_⟩
    · rw [hn, hv]; simp [ht]
    · rw [hn]
      cases hv : field.TagSettings.get "AUTOINCREMENT" with
      | none => rfl
      | some val =>
        have : ¬ g.CheckTruth val = true := fun ht => ha ⟨val, hv, ht⟩
        simp [this]
  · have hn := dataTypeOf_numeric g d field
      (by rcases h with h | h | h
          · exact Or.inl h
          · exact Or.inr (Or.inl h)
          · exact Or.inr (Or.inr (Or.inl h)))
    have hnf : ¬ field.DataType = schemaFloat := by
      rcases h with h | h | h <;> rw [h] <;> decide
    have hsmall : field.Size ≤ 8 → numericColumnType field = "SMALLINT" := fun hs => by
      simp [numericColumnType, hnf, hs]
    have hbig : ¬ field.Size ≤ 8 → numericColumnType field = "INTEGER" := fun hs => by
      simp [numericColumnType, hnf, hs]
    have yes : AutoIncrement g field → ∀ t, numericColumnType field = t →
        (DataTypeOf g d field).2 = .ok (t ++ " GENERATED BY DEFAULT AS IDENTITY") := by
      rintro ⟨val, hv, ht⟩ t rfl
      rw [hn, hv]; simp [ht]
    have no : ¬ AutoIncrement g field → ∀ t, numericColumnType field = t →
        (DataTypeOf g d field).2 = .ok t := by
      rintro ha t rfl
      rw [hn]
      cases hv : field.TagSettings.get "AUTOINCREMENT" with
      | none => rfl
      | some val =>
        have : ¬ g.CheckTruth val = true := fun ht => ha ⟨val, hv, ht⟩
        simp [this]
    exact ⟨fun hs ha => yes ha _ (hsmall hs), fun hs ha => no ha _ (hsmall hs),
      fun hs ha => yes ha _ (hbig hs), fun hs ha => no ha _ (hbig hs)⟩
  · have ht := dataTypeOf_time g d field h
    exact ⟨fun hc => by rw [ht, if_pos hc], fun hc => by rw [ht, if_neg hc]⟩


/-- A witness of C7: an `int` field of size 64 with the tags AUTOINCREMENT and RESTRICT
maps to an identity column, and an `int` field of size 8 without tags to "SMALLINT". -/
theorem C7_DataTypeOf_builtin_witness :
    (DataTypeOf sampleGorm sampleConfig
        { sampleStringField with
          DataType := schemaInt, Size := 64,
          TagSettings := [("RESTRICT", "RESTRICT"), ("AUTOINCREMENT", "true")] }).2
      = .ok "INTEGER GENERATED BY DEFAULT AS IDENTITY" ∧
    (DataTypeOf sampleGorm sampleConfig
        { sampleStringField with DataType := schemaInt, Size := 8 }).2 = .ok "SMALLINT" :=
  ⟨((C7_DataTypeOf_builtin sampleGorm sampleConfig
        { sampleStringField with
          DataType := schemaInt, Size := 64,
          TagSettings := [("RESTRICT", "RESTRICT"), ("AUTOINCREMENT", "true")] }).2.1
      (Or.inr (Or.inl rfl))).2.2.1 (by decide) ⟨"true", by decide, by decide⟩,
   ((C7_DataTypeOf_builtin sampleGorm sampleConfig
        { sampleStringField with DataType := schemaInt, Size := 8 }).2.1
      (Or.inr (Or.inl rfl))).2.1 (by decide) (fun ⟨_, hv, _⟩ => Option.noConfusion hv)⟩

theorem uintToInt_small (u : Nat) (h : u < 2 ^ 63) : uintToInt u = (u : Int) := by
  have h1 : u % 2 ^ 64 = u := Nat.mod_eq_of_lt (by omega)
  unfold uintToInt
  rw [h1, if_pos h]

theorem initialize_defaultStringSize (g : Gorm) (d : Config) :
    (Initialize g d).Config.DefaultStringSize = 1024 := by
  unfold Initialize
  simp only []
  split <;> rfl

theorem dataTypeOf_string (g : Gorm) (d : Config) (field : Field) (h : IsStringColumn field)
    (hd : field.Size ≠ 0 ∨ d.DefaultStringSize < 2 ^ 63) :
    (DataTypeOf g d field).2 = .ok (stringColumnType (effectiveSize d field)) := by
  have h1 : ¬ (field.DataType = schemaBool ∨ field.DataType = schemaInt
      ∨ field.DataType = schemaUint ∨ field.DataType = schemaFloat) := by
    rcases h with h | h <;> rw [h] <;> decide
  have hindex : (field.TagSettings.delete "RESTRICT").get "INDEX"
      = field.TagSettings.get "INDEX" := GoMap.get_delete_ne _ _ _ (by decide)
  have hunique : (field.TagSettings.delete "RESTRICT").get "UNIQUE"
      = field.TagSettings.get "UNIQUE" := GoMap.get_delete_ne _ _ _ (by decide)
  have h' : field.DataType = schemaString ∨ field.DataType = "VARCHAR2" := h
  have hsize : (if field.Size = 0 then
        if d.DefaultStringSize % 2 ^ 64 > 0 then uintToInt d.DefaultStringSize
        else
          if field.PrimaryKey = true ∨ field.HasDefaultValue = true ∨
              (field.TagSettings.get "INDEX").getD "" ≠ "" ∨
              (field.TagSettings.get "UNIQUE").getD "" ≠ "" then 191
          else field.Size
      else field.Size) = effectiveSize d field := by
    unfold effectiveSize
    by_cases hsz : field.Size = 0
    · have hlt : d.DefaultStringSize < 2 ^ 63 := hd.resolve_left (not_not.mpr hsz)
      have hmod : d.DefaultStringSize % 2 ^ 64 = d.DefaultStringSize :=
        Nat.mod_eq_of_lt (by omega)
      rw [if_pos hsz, if_neg (not_not.mpr hsz), hmod, uintToInt_small _ hlt]
      split
      · rfl
      · split
        · rfl
        · exact hsz
    · rw [if_neg hsz, if_pos hsz]
  unfold DataTypeOf
  simp only [dataTypeOf_restrict, if_neg h1, if_pos h', hindex, hunique, hsize, stringColumnType]
  split <;> rfl

theorem dataTypeOf_string_initialized (g : Gorm) (d : Config) (field : Field)
    (h : IsStringColumn field) (hsz : field.Size = 0) :
    (DataTypeOf g (Initialize g d).Config field).2 = .ok "VARCHAR2(1024)" := by
  have hi := initialize_defaultStringSize g d
  rw [dataTypeOf_string g _ field h (Or.inr (by rw [hi]; decide))]
  have : effectiveSize (Initialize g d).Config field = 1024 := by
    simp [effectiveSize, hsz, hi]
  rw [this]
  decide

theorem digitChar_isDigit (k : Nat) (h : k < 10) : (Nat.digitChar k).isDigit = true := by
  interval_cases k <;> decide

theorem toDigitsCore_isDigit (fuel : Nat) :
    ∀ (n : Nat) (ds : List Char), (∀ c ∈ ds, c.isDigit = true) →
      ∀ c ∈ Nat.toDigitsCore 10 fuel n ds, c.isDigit = true := by
  induction fuel with
  | zero => intro n ds hds c hc; exact hds c (by simpa [Nat.toDigitsCore] using hc)
  | succ fuel ih =>
    intro n ds hds c hc
    have hd : ∀ c ∈ Nat.digitChar (n % 10) :: ds, c.isDigit = true := by
      intro c hc
      rcases List.mem_cons.mp hc with rfl | hc
      · exact digitChar_isDigit _ (Nat.mod_lt _ (by decide))
      · exact hds c hc
    unfold Nat.toDigitsCore at hc
    simp only [] at hc
    split at hc
    · exact hd c hc
    · exact ih _ _ hd c hc

theorem toDigitsCore_ne_nil (fuel : Nat) :
    ∀ (n : Nat) (ds : List Char), (fuel ≠ 0 ∨ ds ≠ []) → Nat.toDigitsCore 10 fuel n ds ≠ [] := by
  induction fuel with
  | zero =>
    intro n ds h
    rcases h with h | h
    · exact absurd rfl h
    · simpa [Nat.toDigitsCore] using h
  | succ fuel ih =>
    intro n ds _
    unfold Nat.toDigitsCore
    simp only []
    split
    · exact List.cons_ne_nil _ _
    · exact ih _ _ (Or.inr (List.cons_ne_nil _ _))

theorem numericPlaceholder_repr (n : Nat) : numericPlaceholder (":" ++ Nat.repr n) = true := by
  have hdig : ∀ c ∈ Nat.toDigits 10 n, c.isDigit = true :=
    toDigitsCore_isDigit _ _ _ (by simp)
  have hne : Nat.toDigits 10 n ≠ [] := toDigitsCore_ne_nil _ _ _ (Or.inl (Nat.succ_ne_zero n))
  have hdata : (":" ++ Nat.repr n).data = ':' :: Nat.toDigits 10 n := by
    simp [Nat.repr, String.data_append, List.asString]
  unfold numericPlaceholder
  rw [hdata]
  cases hds : Nat.toDigits 10 n with
  | nil => exact absurd hds hne
  | cons d ds =>
    rw [hds] at hdig
    simpa using hdig

theorem itoa_natCast (n : Nat) : Itoa (n : Int) = Nat.repr n := by
  unfold Itoa
  rw [if_neg (by omega)]
  simp

theorem bindVarTo_eq (writer : Builder) (stmt : Statement) (v : Value) :
    BindVarTo writer stmt v = writer.WriteString (":" ++ Nat.repr stmt.Vars.length) := by
  unfold BindVarTo
  rw [itoa_natCast]
  cases writer <;> simp [Builder.WriteString, String.append_assoc]

theorem bindVars_spec (vs : List Value) :
    ∀ stmt : Statement,
      (bindVars vs stmt).1 = { stmt with Vars := stmt.Vars ++ vs } ∧
      (bindVars vs stmt).2 =
        (List.range' (stmt.Vars.length + 1) vs.length).map (fun i => ":" ++ Nat.repr i) := by
  induction vs with
  | nil => intro stmt; simp [bindVars]
  | cons v rest ih =>
    intro stmt
    have h := ih { stmt with Vars := stmt.Vars ++ [v] }
    simp only [bindVars, addVar, bindVarTo_eq]
    refine ⟨?_, ?_⟩
    · rw [h.1]; simp
    · rw [h.2]
      simp [Builder.WriteString, Builder.text, List.range'_succ]

/-- C9: `BindVarTo` writes a numbered placeholder.  For a statement whose `Vars` has length
`n` and for every value `v`, `BindVarTo` writes exactly ":" followed by the decimal
rendering of `n` to the writer, whatever `v` is, and when the writer is a statement its
`Vars` stay as they are (only its SQL grows).  Consequently, when each variable is
appended to `Vars` before its placeholder is written, binding `k` variables into a
statement with empty `Vars` yields the placeholders ":1", ":2", ..., ":k" in that order,
each matching the pattern of a colon followed by decimal digits. -/
theorem C9_BindVarTo :
    (∀ (writer : Builder) (stmt : Statement) (v : Value),
      BindVarTo writer stmt v = writer.WriteString (":" ++ Nat.repr stmt.Vars.length)) ∧
    (∀ (s stmt : Statement) (v : Value),
      BindVarTo (.ofStatement s) stmt v =
        .ofStatement { s with SQL := s.SQL ++ (":" ++ Nat.repr stmt.Vars.length) }) ∧
    (∀ (vs : List Value) (stmt : Statement), stmt.Vars = [] →
      (bindVars vs stmt).1 = { stmt with Vars := vs } ∧
      (bindVars vs stmt).2 = (List.range' 1 vs.length).map (fun i => ":" ++ Nat.repr i) ∧
      ∀ p ∈ (bindVars vs stmt).2, numericPlaceholder p = true) := by
  refine ⟨bindVarTo_eq, fun s stmt v => ?_, fun vs stmt hv => ?_⟩
  · rw [bindVarTo_eq]; rfl
  · have h := bindVars_spec vs stmt
    rw [hv] at h
    refine ⟨by simpa using h.1, by simpa using h.2, fun p hp => ?_⟩
    rw [h.2] at hp
    obtain ⟨i, _, rfl⟩ := List.mem_map.mp hp
    exact numericPlaceholder_repr i

/-- A witness of C9: binding three values into the sample statement, whose `Vars` are
empty, writes ":1", ":2" and ":3". -/
theorem C9_BindVarTo_witness :
    (bindVars [.str none "ann", .nil, .int .Int none 7] sampleStmt).2 = [":1", ":2", ":3"] :=
  ((C9_BindVarTo.2.2 [.str none "ann", .nil, .int .Int none 7] sampleStmt rfl).2.1).trans
    (by decide)

/-! ## C3 and C4 -/

theorem transferVal_spec (v : Value) (h : v ≠ Value.nil) :
    ∃ v', transferVal v = .ok v' ∧ Coerced v v' ∧ ¬ IsNamedPrimitiveKind v' ∧
      (¬ HasCoercedKind v → v' = v) ∧ v' ≠ Value.nil ∧ transferVal v' = .ok v' := by
  cases v with
  | nil => exact absurd rfl h
  | int k n i =>
    cases n <;> cases k <;>
      simp [transferVal, isDriverPrimitive, kindOf, TypeOf, IntKind.toKind, reflectInt, Coerced,
        IsNamedPrimitiveKind, HasCoercedKind]
  | uint k n i =>
    cases n <;> cases k <;>
      simp [transferVal, isDriverPrimitive, kindOf, TypeOf, UintKind.toKind, reflectUint, Coerced,
        IsNamedPrimitiveKind, HasCoercedKind]
  | float k n f =>
    cases n <;> cases k <;>
      simp [transferVal, isDriverPrimitive, kindOf, TypeOf, FloatKind.toKind, reflectFloat,
        Coerced, IsNamedPrimitiveKind, HasCoercedKind]
  | str n s =>
    cases n <;>
      simp [transferVal, isDriverPrimitive, kindOf, TypeOf, reflectString, Coerced,
        IsNamedPrimitiveKind, HasCoercedKind]
  | other k n r =>
    cases k <;>
      simp [transferVal, isDriverPrimitive, kindOf, TypeOf, OtherKind.toKind, Coerced,
        IsNamedPrimitiveKind, HasCoercedKind]

theorem transferVars_spec (vars : List Value) (h : ∀ v ∈ vars, v ≠ Value.nil) :
    ∃ out, transferVars vars = .ok out ∧
      List.Forall₂ (fun v v' => Coerced v v' ∧ ¬ IsNamedPrimitiveKind v' ∧
        (¬ HasCoercedKind v → v' = v)) vars out := by
  induction vars with
  | nil => exact ⟨[], rfl, List.Forall₂.nil⟩
  | cons v rest ih =>
    obtain ⟨v', hv, hc, hn, hp, _, _⟩ := transferVal_spec v (h v (List.mem_cons_self _ _))
    obtain ⟨out, ho, hf⟩ := ih (fun w hw => h w (List.mem_cons_of_mem _ hw))
    exact ⟨v' :: out, by simp [transferVars, hv, ho], List.Forall₂.cons ⟨hc, hn, hp⟩ hf⟩

/-- C3: `transferValType` coerces every bound parameter to a primitive the driver accepts
while preserving its value.  For a statement whose `Vars` are all non-nil the call
returns and changes nothing but `Vars`; the new `Vars` has the same length and order, and
at each index the new value is (a) the original value when its dynamic type is one of
`int`, `int8`..`int64`, `uint`, `uint8`..`uint64`, `float32`, `float64`, `string`; (b) an
`int64` of the same value when it is of a defined type of signed-integer kind; (c) a
`uint64` of the same value when of unsigned-integer kind; (d) a `float64` of the same
number when of float kind; (e) a plain `string` with the same contents when of string
kind.  Hence afterwards no element of `Vars` is of a user-defined type whose kind is
integer, unsigned, float or string. -/
theorem C3_transferValType (db : DB) (stmt : Statement) (hs : db.Statement = some stmt)
    (hnil : ∀ v ∈ stmt.Vars, v ≠ Value.nil) :
    ∃ vars, transferValType db = .ok { db with Statement := some { stmt with Vars := vars } } ∧
      vars.length = stmt.Vars.length ∧
      (∀ (i : Nat) (h1 : i < stmt.Vars.length) (h2 : i < vars.length),
        Coerced (stmt.Vars.get ⟨i, h1⟩) (vars.get ⟨i, h2⟩)) ∧
      (∀ v ∈ vars, ¬ IsNamedPrimitiveKind v) := by
  obtain ⟨out, ho, hf⟩ := transferVars_spec stmt.Vars hnil
  refine ⟨out, by simp [transferValType, hs, ho], hf.length_eq.symm, fun i h1 h2 => ?_,
    fun v hv => ?_⟩
  · exact ((List.forall₂_iff_get.mp hf).2 i h1 h2).1
  · obtain ⟨i, rfl⟩ := List.mem_iff_get.mp hv
    exact ((List.forall₂_iff_get.mp hf).2 i.1 (by rw [hf.length_eq]; exact i.2) i.2).2.1

/-- A witness of C3: a statement binding a `string`, a value of the defined type `Age`
of kind `int8`, and a `time.Time`. -/
theorem C3_transferValType_witness :
    ∃ vars,
      transferValType { sampleDB with Statement := some { sampleStmt with
        Vars := [.str none "ann", .int .Int8 (some "Age") 7, .other .Struct (some "time.Time") "t"] } }
      = .ok { sampleDB with Statement := some { sampleStmt with Vars := vars } } ∧
      vars.length = 3 ∧
      (∀ (i : Nat)
        (h1 : i < [Value.str none "ann", .int .Int8 (some "Age") 7,
          .other .Struct (some "time.Time") "t"].length) (h2 : i < vars.length),
        Coerced ([Value.str none "ann", .int .Int8 (some "Age") 7,
          .other .Struct (some "time.Time") "t"].get ⟨i, h1⟩) (vars.get ⟨i, h2⟩)) ∧
      (∀ v ∈ vars, ¬ IsNamedPrimitiveKind v) :=
  C3_transferValType
    { sampleDB with Statement := some { sampleStmt with
      Vars := [.str none "ann", .int .Int8 (some "Age") 7, .other .Struct (some "time.Time") "t"] } }
    { sampleStmt with
      Vars := [.str none "ann", .int .Int8 (some "Age") 7, .other .Struct (some "time.Time") "t"] }
    rfl (by decide)

/-- C4, the failing input: a nil bound parameter, and a nil value in a map destination,
make `transferValType`, `BeforeUpdate` and `BeforeDelete` panic with a nil pointer
dereference, in `reflect.TypeOf(val).Kind()`. -/
theorem C4_nil_value_panics :
    transferValType { sampleDB with Statement := some { sampleStmt with Vars := [.nil] } }
      = .error nilDeref ∧
    BeforeUpdate sampleGorm
      { sampleDB with Statement := some { sampleStmt with Dest := .map [("name", .nil)] } }
      = .error nilDeref ∧
    BeforeDelete sampleGorm
      { sampleDB with Statement := some { sampleStmt with Dest := .map [("name", .nil)] } }
      = .error nilDeref := by
  refine ⟨by decide, by decide, by decide⟩

/-! ## C2 -/

theorem SameFrame.refl (a : DB) : SameFrame a a := ⟨rfl, rfl, rfl, rfl⟩

theorem SameFrame.trans {a b c : DB} (h1 : SameFrame a b) (h2 : SameFrame b c) :
    SameFrame a c :=
  ⟨h1.1.trans h2.1, h1.2.1.trans h2.2.1, h1.2.2.1.trans h2.2.2.1, h1.2.2.2.trans h2.2.2.2⟩

theorem sameFrame_AddError (db : DB) (err : Option Error) : SameFrame db (AddError db err) := by
  unfold AddError
  cases err with
  | none => exact SameFrame.refl db
  | some e => cases h : db.Error <;> exact ⟨rfl, rfl, rfl, rfl⟩

theorem sameFrame_addErrors (errs : List Error) :
    ∀ db : DB, SameFrame db (addErrors db errs) := by
  induction errs with
  | nil => intro db; exact SameFrame.refl db
  | cons e rest ih =>
    intro db
    exact (sameFrame_AddError db (some e)).trans (ih _)

theorem sameFrame_runStep (step : StmtStep) (db db' : DB) (h : runStep step db = .ok db') :
    SameFrame db db' := by
  unfold runStep at h
  cases hs : db.Statement with
  | none => simp [hs] at h
  | some stmt =>
    rw [hs] at h
    cases hr : step stmt with
    | error p => simp [hr] at h
    | ok r =>
      obtain ⟨stmt', errs⟩ := r
      simp only [hr, Except.ok.injEq] at h
      subst h
      exact SameFrame.trans (b := { db with Statement := some stmt' }) ⟨rfl, rfl, rfl, rfl⟩
        (sameFrame_addErrors errs _)

theorem sameFrame_addSchemaClauses (g : Gorm) (cs : List String) :
    ∀ db db' : DB, addSchemaClauses g cs db = .ok db' → SameFrame db db' := by
  induction cs with
  | nil =>
    intro db db' h
    simp only [addSchemaClauses, Except.ok.injEq] at h
    subst h
    exact SameFrame.refl db
  | cons c rest ih =>
    intro db db' h
    unfold addSchemaClauses at h
    cases hr : runStep (g.AddClause (.ofSchema c)) db with
    | error p => simp [hr] at h
    | ok db1 =>
      rw [hr] at h
      exact (sameFrame_runStep _ _ _ hr).trans (ih _ _ h)

theorem sameFrame_transferValType (db db' : DB) (h : transferValType db = .ok db') :
    SameFrame db db' := by
  unfold transferValType at h
  cases hs : db.Statement with
  | none =>
    simp only [hs, Except.ok.injEq] at h
    subst h
    exact SameFrame.refl db
  | some stmt =>
    rw [hs] at h
    cases hv : transferVars stmt.Vars with
    | error p => simp [hv] at h
    | ok vars =>
      simp only [hv, Except.ok.injEq] at h
      subst h
      exact ⟨rfl, rfl, rfl, rfl⟩

theorem sameFrame_buildSQL (g : Gorm) (db s : DB) (h : buildSQL g db = .ok (.guard s)) :
    SameFrame db s := by
  unfold buildSQL at h
  cases h1 : runStep g.Build db with
  | error p => simp [h1] at h
  | ok db1 =>
    rw [h1] at h
    simp only at h
    cases h2 : transferValType db1 with
    | error p => simp [h2] at h
    | ok db2 =>
      rw [h2] at h
      simp only [Except.ok.injEq, Reached.guard.injEq] at h
      subst h
      exact (sameFrame_runStep _ _ _ h1).trans (sameFrame_transferValType _ _ h2)

theorem sameFrame_updateBuild (g : Gorm) (db s : DB) (h : updateBuild g db = .ok (.guard s)) :
    SameFrame db s := by
  unfold updateBuild at h
  split at h
  · simp at h
  cases hs : db.Statement with
  | none => simp [hs] at h
  | some stmt =>
    rw [hs] at h
    simp only at h
    have hsch : ∀ db1, (match stmt.Schema with
        | some schema => addSchemaClauses g schema.UpdateClauses db
        | none => Except.ok db) = .ok db1 → SameFrame db db1 := by
      intro db1 h1
      cases hsc : stmt.Schema with
      | none =>
        simp only [hsc, Except.ok.injEq] at h1
        subst h1
        exact SameFrame.refl db
      | some schema =>
        rw [hsc] at h1
        exact sameFrame_addSchemaClauses g _ _ _ h1
    generalize (match stmt.Schema with
        | some schema => addSchemaClauses g schema.UpdateClauses db
        | none => Except.ok db) = r1 at h hsch
    cases r1 with
    | error p => simp at h
    | ok db1 =>
      have f1 := hsch db1 rfl
      simp only at h
      cases hs1 : db1.Statement with
      | none => simp [hs1] at h
      | some stmt1 =>
        rw [hs1] at h
        simp only at h
        split at h
        · cases h2 : runStep (g.AddClauseIfNotExists .Update) db1 with
          | error p => simp [h2] at h
          | ok db2 =>
            have f2 := sameFrame_runStep _ _ _ h2
            rw [h2] at h
            simp only at h
            cases hs2 : db2.Statement with
            | none => simp [hs2] at h
            | some stmt2 =>
              rw [hs2] at h
              simp only at h
              cases h3 : g.ConvertToAssignments stmt2 with
              | error p => simp [h3] at h
              | ok r3 =>
                obtain ⟨set, stmt3, errs⟩ := r3
                rw [h3] at h
                simp only at h
                have f3 : SameFrame db2 (addErrors { db2 with Statement := some stmt3 } errs) :=
                  SameFrame.trans (b := { db2 with Statement := some stmt3 }) ⟨rfl, rfl, rfl, rfl⟩
                    (sameFrame_addErrors errs _)
                split at h
                · cases h4 : runStep (g.AddClause (.Set set))
                      (addErrors { db2 with Statement := some stmt3 } errs) with
                  | error p => simp [h4] at h
                  | ok db4 =>
                    rw [h4] at h
                    simp only at h
                    exact f1.trans (f2.trans (f3.trans
                      ((sameFrame_runStep _ _ _ h4).trans (sameFrame_buildSQL g _ _ h))))
                · split at h
                  · simp at h
                  · exact f1.trans (f2.trans (f3.trans (sameFrame_buildSQL g _ _ h)))
        · simp only [Except.ok.injEq, Reached.guard.injEq] at h
          subst h
          exact f1

theorem sameFrame_deleteConditions (g : Gorm) (db db' : DB)
    (h : deleteConditions g db = .ok db') : SameFrame db db' := by
  unfold deleteConditions at h
  cases hs : db.Statement with
  | none => simp [hs] at h
  | some stmt =>
    rw [hs] at h
    simp only at h
    cases hsc : stmt.Schema with
    | none =>
      simp only [hsc, Except.ok.injEq] at h
      subst h
      exact SameFrame.refl db
    | some schema =>
      rw [hsc] at h
      simp only at h
      have h1 : ∀ db1, (if (g.PrimaryValuesOfReflectValue stmt).2.length > 0 then
            runStep (g.AddClause (.WhereIN (g.PrimaryValuesOfReflectValue stmt).1
              (g.PrimaryValuesOfReflectValue stmt).2)) db
          else Except.ok db) = .ok db1 → SameFrame db db1 := by
        intro db1 h1
        split at h1
        · exact sameFrame_runStep _ _ _ h1
        · simp only [Except.ok.injEq] at h1
          subst h1
          exact SameFrame.refl db
      generalize (if (g.PrimaryValuesOfReflectValue stmt).2.length > 0 then
            runStep (g.AddClause (.WhereIN (g.PrimaryValuesOfReflectValue stmt).1
              (g.PrimaryValuesOfReflectValue stmt).2)) db
          else Except.ok db) = r1 at h h1
      cases r1 with
      | error p => simp at h
      | ok db1 =>
        have f1 := h1 db1 rfl
        simp only at h
        cases hs1 : db1.Statement with
        | none => simp [hs1] at h
        | some stmt1 =>
          rw [hs1] at h
          simp only at h
          generalize (if stmt1.ReflectValue.CanAddr = true then destNe stmt1.Dest stmt1.Model
            else Except.ok false) = r2 at h
          cases r2 with
          | error p => simp at h
          | ok differ =>
            simp only at h
            split at h
            · split at h
              · exact f1.trans (sameFrame_runStep _ _ _ h)
              · simp only [Except.ok.injEq] at h
                subst h
                exact f1
            · simp only [Except.ok.injEq] at h
              subst h
              exact f1

theorem sameFrame_deleteBuild (g : Gorm) (db s : DB) (h : deleteBuild g db = .ok (.guard s)) :
    SameFrame db s := by
  unfold deleteBuild at h
  split at h
  · simp at h
  cases hs : db.Statement with
  | none => simp [hs] at h
  | some stmt =>
    rw [hs] at h
    simp only at h
    have hsch : ∀ db1, (match stmt.Schema with
        | some schema => addSchemaClauses g schema.DeleteClauses db
        | none => Except.ok db) = .ok db1 → SameFrame db db1 := by
      intro db1 h1
      cases hsc : stmt.Schema with
      | none =>
        simp only [hsc, Except.ok.injEq] at h1
        subst h1
        exact SameFrame.refl db
      | some schema =>
        rw [hsc] at h1
        exact sameFrame_addSchemaClauses g _ _ _ h1
    generalize (match stmt.Schema with
        | some schema => addSchemaClauses g schema.DeleteClauses db
        | none => Except.ok db) = r1 at h hsch
    cases r1 with
    | error p => simp at h
    | ok db1 =>
      have f1 := hsch db1 rfl
      simp only at h
      cases hs1 : db1.Statement with
      | none => simp [hs1] at h
      | some stmt1 =>
        rw [hs1] at h
        simp only at h
        split at h
        · cases h2 : runStep (g.AddClauseIfNotExists .Delete) db1 with
          | error p => simp [h2] at h
          | ok db2 =>
            rw [h2] at h
            simp only at h
            cases h3 : deleteConditions g db2 with
            | error p => simp [h3] at h
            | ok db3 =>
              rw [h3] at h
              simp only at h
              cases h4 : runStep (g.AddClauseIfNotExists .From) db3 with
              | error p => simp [h4] at h
              | ok db4 =>
                rw [h4] at h
                simp only at h
                exact f1.trans ((sameFrame_runStep _ _ _ h2).trans
                  ((sameFrame_deleteConditions g _ _ h3).trans
                    ((sameFrame_runStep _ _ _ h4).trans (sameFrame_buildSQL g _ _ h))))
        · simp only [Except.ok.injEq, Reached.guard.injEq] at h
          subst h
          exact f1

theorem checkMissing_no_where (s : DB) (stmt : Statement) (ha : s.AllowGlobalUpdate = false)
    (hs : s.Statement = some stmt) (hw : stmt.Clauses.get "WHERE" = none) :
    ∃ r, checkMissingWhereConditions s = .ok r ∧ SameFrame s r ∧ r.Statement = s.Statement ∧
      r.Error = some (s.Error.getD Error.ErrMissingWhereClause) := by
  unfold checkMissingWhereConditions
  cases he : s.Error with
  | none =>
    refine ⟨AddError s (some Error.ErrMissingWhereClause), ?_, sameFrame_AddError _ _, ?_, ?_⟩
    · simp [ha, hs, hw]
    · simp [AddError, he]
    · simp [AddError, he]
  | some e =>
    exact ⟨s, by simp [ha], SameFrame.refl s, rfl, by simp [he]⟩

theorem updateExec_blocked (g : Gorm) (supportReturning : Bool) (s : DB) (stmt : Statement)
    (ha : s.AllowGlobalUpdate = false) (hs : s.Statement = some stmt)
    (hw : stmt.Clauses.get "WHERE" = none) :
    ∃ r, updateExec g supportReturning s = .ok r ∧ SameFrame s r ∧
      r.Statement = s.Statement ∧ r.Error = some (s.Error.getD Error.ErrMissingWhereClause) := by
  obtain ⟨r, hr, hf, hst, herr⟩ := checkMissing_no_where s stmt ha hs hw
  refine ⟨r, ?_, hf, hst, herr⟩
  unfold updateExec
  rw [hr]
  simp [herr]

theorem deleteExec_blocked (g : Gorm) (supportReturning : Bool) (s : DB) (stmt : Statement)
    (ha : s.AllowGlobalUpdate = false) (hs : s.Statement = some stmt)
    (hw : stmt.Clauses.get "WHERE" = none) :
    ∃ r, deleteExec g supportReturning s = .ok r ∧ SameFrame s r ∧
      r.Statement = s.Statement ∧ r.Error = some (s.Error.getD Error.ErrMissingWhereClause) := by
  obtain ⟨r, hr, hf, hst, herr⟩ := checkMissing_no_where s stmt ha hs hw
  refine ⟨r, ?_, hf, hst, herr⟩
  unfold deleteExec
  rw [hr]
  simp [herr]

/-- C2, as the code has it: the `Update` and `Delete` callbacks never send an
unconditional mutation to the database.  For a run of `Update(config)` or
`Delete(config)` that reaches the guard `checkMissingWhereConditions` in a state with
`AllowGlobalUpdate = false` and no "WHERE" clause, the callback returns, has issued
neither `ExecContext` nor `QueryContext` on the connection pool, has left `RowsAffected`
unchanged, and ends with `gorm.ErrMissingWhereClause` in `db.Error` when no error is on
record on reaching the guard, and with the error on record there otherwise.  A run
entered with an error on record returns at once and leaves the db, that error included,
as it was. -/
theorem C2_no_unconditional_mutation (g : Gorm) (config : CallbacksConfig) (db : DB) :
    (∀ e, db.Error = some e → Update g config db = .ok db ∧ Delete g config db = .ok db) ∧
    (∀ (s : DB) (stmt : Statement), s.AllowGlobalUpdate = false → s.Statement = some stmt →
      stmt.Clauses.get "WHERE" = none →
      (updateBuild g db = .ok (.guard s) →
        ∃ r, Update g config db = .ok r ∧ r.PoolCalls = db.PoolCalls ∧
          r.RowsAffected = db.RowsAffected ∧
          (s.Error = none → r.Error = some Error.ErrMissingWhereClause) ∧
          (∀ e, s.Error = some e → r.Error = some e)) ∧
      (deleteBuild g db = .ok (.guard s) →
        ∃ r, Delete g config db = .ok r ∧ r.PoolCalls = db.PoolCalls ∧
          r.RowsAffected = db.RowsAffected ∧
          (s.Error = none → r.Error = some Error.ErrMissingWhereClause) ∧
          (∀ e, s.Error = some e → r.Error = some e))) := by
  refine ⟨fun e he => ⟨?_, ?_⟩, fun s stmt ha hs hw => ⟨fun hb => ?_, fun hb => ?_⟩⟩
  · simp [Update, updateBuild, he]
  · simp [Delete, deleteBuild, he]
  · obtain ⟨r, hr, hf, _, herr⟩ :=
      updateExec_blocked g (config.UpdateClauses.contains "RETURNING") s stmt ha hs hw
    have hf0 := sameFrame_updateBuild g db s hb
    refine ⟨r, by unfold Update; simp only [hb]; exact hr, (hf0.trans hf).1.symm, (hf0.trans hf).2.1.symm,
      fun he => by simp [herr, he], fun e he => by simp [herr, he]⟩
  · obtain ⟨r, hr, hf, _, herr⟩ :=
      deleteExec_blocked g (config.DeleteClauses.contains "RETURNING") s stmt ha hs hw
    have hf0 := sameFrame_deleteBuild g db s hb
    refine ⟨r, by unfold Delete; simp only [hb]; exact hr, (hf0.trans hf).1.symm, (hf0.trans hf).2.1.symm,
      fun he => by simp [herr, he], fun e he => by simp [herr, he]⟩

/-- A witness of C2: the sample db, an update or a delete with no condition, reaches the
guard without a WHERE clause; `Update` and `Delete` end with the missing-WHERE error,
have called nothing on the pool and have left `RowsAffected` at 0. -/
theorem C2_no_unconditional_mutation_witness :
    (∃ r, Update sampleGorm callbacksConfig sampleDB = .ok r ∧ r.PoolCalls = [] ∧
      r.RowsAffected = 0 ∧ r.Error = some Error.ErrMissingWhereClause) ∧
    (∃ r, Delete sampleGorm callbacksConfig sampleDB = .ok r ∧ r.PoolCalls = [] ∧
      r.RowsAffected = 0 ∧ r.Error = some Error.ErrMissingWhereClause) := by
  obtain ⟨r, h, hp, hr, he, _⟩ :=
    ((C2_no_unconditional_mutation sampleGorm callbacksConfig sampleDB).2
      { sampleDB with Statement := some { sampleStmt with
          Clauses := [("SET", ⟨"SET", some (.Other "SET")⟩), ("UPDATE", ⟨"UPDATE", none⟩)],
          SQL := "SQL" } }
      { sampleStmt with
          Clauses := [("SET", ⟨"SET", some (.Other "SET")⟩), ("UPDATE", ⟨"UPDATE", none⟩)],
          SQL := "SQL" }
      rfl rfl (by decide)).1 (by decide)
  obtain ⟨r', h', hp', hr', he', _⟩ :=
    ((C2_no_unconditional_mutation sampleGorm callbacksConfig sampleDB).2
      { sampleDB with Statement := some { sampleStmt with
          Clauses := [("FROM", ⟨"FROM", none⟩), ("DELETE", ⟨"DELETE", none⟩)],
          SQL := "SQL" } }
      { sampleStmt with
          Clauses := [("FROM", ⟨"FROM", none⟩), ("DELETE", ⟨"DELETE", none⟩)],
          SQL := "SQL" }
      rfl rfl (by decide)).2 (by decide)
  exact ⟨⟨r, h, hp, hr, he rfl⟩, ⟨r', h', hp', hr', he' rfl⟩⟩

/-- The counterexample to C2 as it is stated: the run of `Update` on `sampleInvalidDB` is
entered with no error on record and with `AllowGlobalUpdate = false`;
`ConvertToAssignments` reports `ErrInvalidData` for the destination and returns no
assignment, the SET clause already there lets the run go on, and the guard is reached
with no "WHERE" clause and with that error on record, so the guard adds nothing.  The run
ends with `ErrInvalidData`, which is neither `gorm.ErrMissingWhereClause` nor an error
recorded at entry. -/
theorem C2_counterexample :
    sampleInvalidDB.Error = none ∧
    sampleInvalidDB.AllowGlobalUpdate = false ∧
    updateBuild sampleGorm sampleInvalidDB = .ok (.guard
      { sampleInvalidDB with
        Error := some Error.ErrInvalidData
        Statement := some { sampleStmt with
          Dest := .other "5"
          Clauses := [("UPDATE", ⟨"UPDATE", none⟩), ("SET", ⟨"SET", some (.Other "SET")⟩)]
          SQL := "SQL" } }) ∧
    GoMap.get [("UPDATE", (⟨"UPDATE", none⟩ : Clause)), ("SET", ⟨"SET", some (.Other "SET")⟩)]
      "WHERE" = none ∧
    Update sampleGorm callbacksConfig sampleInvalidDB = .ok
      { sampleInvalidDB with
        Error := some Error.ErrInvalidData
        Statement := some { sampleStmt with
          Dest := .other "5"
          Clauses := [("UPDATE", ⟨"UPDATE", none⟩), ("SET", ⟨"SET", some (.Other "SET")⟩)]
          SQL := "SQL" } } ∧
    some Error.ErrInvalidData ≠ some Error.ErrMissingWhereClause := by
  refine ⟨rfl, rfl, by decide, by decide, by decide, by decide⟩

/-! ## C8 -/

theorem GoMap.mem_keys_delete {β : Type} (m : GoMap β) (k k' : String) :
    k' ∈ (m.delete k).keys ↔ k' ∈ m.keys ∧ k' ≠ k := by
  induction m with
  | nil => simp [GoMap.delete, GoMap.keys]
  | cons e rest ih =>
    obtain ⟨k0, v⟩ := e
    simp only [GoMap.keys] at ih
    by_cases hk : k0 = k
    · subst hk
      simp only [GoMap.delete, if_true, GoMap.keys, List.map_cons, List.mem_cons]
      rw [ih]
      constructor
      · rintro ⟨h1, h2⟩; exact ⟨Or.inr h1, h2⟩
      · rintro ⟨h1 | h1, h2⟩
        · exact absurd h1 h2
        · exact ⟨h1, h2⟩
    · simp only [GoMap.delete, if_neg hk, GoMap.keys, List.map_cons, List.mem_cons]
      rw [ih]
      constructor
      · rintro (h1 | ⟨h1, h2⟩)
        · exact ⟨Or.inl h1, by rw [h1]; exact hk⟩
        · exact ⟨Or.inr h1, h2⟩
      · rintro ⟨h1 | h1, h2⟩
        · exact Or.inl h1
        · exact Or.inr ⟨h1, h2⟩

theorem GoMap.nodup_keys_delete {β : Type} (m : GoMap β) (k : String) (h : m.keys.Nodup) :
    (m.delete k).keys.Nodup := by
  induction m with
  | nil => simp [GoMap.delete, GoMap.keys]
  | cons e rest ih =>
    obtain ⟨k0, v⟩ := e
    simp only [GoMap.keys, List.map_cons, List.nodup_cons] at h
    by_cases hk : k0 = k
    · simp only [GoMap.delete, hk, if_true]
      exact ih h.2
    · simp only [GoMap.delete, if_neg hk, GoMap.keys, List.map_cons, List.nodup_cons]
      refine ⟨fun hmem => h.1 ?_, ih h.2⟩
      exact ((GoMap.mem_keys_delete rest k k0).mp hmem).1

theorem GoMap.mem_keys_set {β : Type} (m : GoMap β) (k : String) (v : β) (k' : String) :
    k' ∈ (m.set k v).keys ↔ k' = k ∨ k' ∈ m.keys := by
  simp only [GoMap.set, GoMap.keys, List.map_cons, List.mem_cons]
  have := GoMap.mem_keys_delete m k k'
  simp only [GoMap.keys] at this
  rw [this]
  constructor
  · rintro (h | ⟨h, _⟩)
    · exact Or.inl h
    · exact Or.inr h
  · rintro (h | h)
    · exact Or.inl h
    · by_cases hk : k' = k
      · exact Or.inl hk
      · exact Or.inr ⟨h, hk⟩

theorem GoMap.nodup_keys_set {β : Type} (m : GoMap β) (k : String) (v : β)
    (h : m.keys.Nodup) : (m.set k v).keys.Nodup := by
  simp only [GoMap.set, GoMap.keys, List.map_cons, List.nodup_cons]
  refine ⟨fun hmem => ?_, GoMap.nodup_keys_delete m k h⟩
  exact ((GoMap.mem_keys_delete m k k).mp hmem).2 rfl

theorem GoMap.get_set {β : Type} (m : GoMap β) (k : String) (v : β) (k' : String) :
    (m.set k v).get k' = if k = k' then some v else m.get k' := by
  by_cases hk : k = k'
  · simp [GoMap.set, GoMap.get, hk]
  · simp only [GoMap.set, GoMap.get, if_neg hk]
    exact GoMap.get_delete_ne m k k' (fun h => hk h.symm)

theorem GoMap.delete_of_not_mem {β : Type} (m : GoMap β) (k : String) (h : k ∉ m.keys) :
    m.delete k = m := by
  induction m with
  | nil => rfl
  | cons e rest ih =>
    obtain ⟨k0, v⟩ := e
    simp only [GoMap.keys, List.map_cons, List.mem_cons, not_or] at h
    have hk : ¬ k0 = k := fun e => h.1 e.symm
    simp only [GoMap.delete, if_neg hk]
    rw [ih h.2]

theorem GoMap.length_set_of_not_mem {β : Type} (m : GoMap β) (k : String) (v : β)
    (h : k ∉ m.keys) : (m.set k v).length = m.length + 1 := by
  simp [GoMap.set, GoMap.delete_of_not_mem m k h]

theorem beforeUpdateLoop_cons (upper : Char → Char) (key : String) (val : Value)
    (rest acc : GoMap Value) :
    beforeUpdateLoop upper ((key, val) :: rest) acc =
      match transferVal val with
      | .error p => .error p
      | .ok val => beforeUpdateLoop upper rest (acc.set (norm upper key) val) := by
  rfl

theorem beforeDeleteLoop_cons (upper : Char → Char) (key : String) (val : Value)
    (rest acc : GoMap Value) :
    beforeDeleteLoop upper ((key, val) :: rest) acc =
      match transferVal val with
      | .error p => .error p
      | .ok val => beforeDeleteLoop upper rest (acc.set (norm upper key) val) := by
  rfl

theorem beforeDeleteLoop_eq (upper : Char → Char) (m : GoMap Value) :
    ∀ acc, beforeDeleteLoop upper m acc = beforeUpdateLoop upper m acc := by
  induction m with
  | nil => intro acc; rfl
  | cons e rest ih =>
    intro acc
    obtain ⟨key, val⟩ := e
    rw [beforeDeleteLoop_cons, beforeUpdateLoop_cons]
    cases transferVal val with
    | error p => rfl
    | ok v => exact ih _

theorem GoMap.mem_of_mem_delete {β : Type} (m : GoMap β) (k : String) (e : String × β)
    (h : e ∈ m.delete k) : e ∈ m := by
  induction m with
  | nil => simp [GoMap.delete] at h
  | cons e0 rest ih =>
    obtain ⟨k0, v⟩ := e0
    by_cases hk : k0 = k
    · simp only [GoMap.delete, hk, if_true] at h
      exact List.mem_cons_of_mem _ (ih h)
    · simp only [GoMap.delete, if_neg hk, List.mem_cons] at h
      rcases h with h | h
      · exact h ▸ List.mem_cons_self _ _
      · exact List.mem_cons_of_mem _ (ih h)

theorem beforeUpdateLoop_spec (upper : Char → Char) (m : GoMap Value)
    (hnil : ∀ e ∈ m, e.2 ≠ Value.nil) :
    ∀ acc : GoMap Value, ∃ out, beforeUpdateLoop upper m acc = .ok out ∧
      (∀ k', k' ∈ out.keys ↔ (k' ∈ acc.keys ∨ ∃ e ∈ m, k' = norm upper e.1)) ∧
      (acc.keys.Nodup → out.keys.Nodup) ∧
      (∀ k', (∀ e ∈ m, norm upper e.1 ≠ k') → out.get k' = acc.get k') ∧
      ((m.map (fun e => norm upper e.1)).Nodup →
        ∀ e ∈ m, ∃ v', transferVal e.2 = .ok v' ∧ out.get (norm upper e.1) = some v') ∧
      (acc.keys.Nodup → (m.map (fun e => norm upper e.1)).Nodup →
        (∀ e ∈ m, norm upper e.1 ∉ acc.keys) → out.length = acc.length + m.length) ∧
      ((∀ e ∈ acc, e.2 ≠ Value.nil ∧ transferVal e.2 = .ok e.2) →
        ∀ e ∈ out, e.2 ≠ Value.nil ∧ transferVal e.2 = .ok e.2) := by
  induction m with
  | nil =>
    intro acc
    refine ⟨acc, rfl, ?_, id, fun _ _ => rfl, ?_, ?_, id⟩
    · intro k'; simp
    · intro _ e he; simp at he
    · intro _ _ _; simp
  | cons e0 rest ih =>
    intro acc
    obtain ⟨key, val⟩ := e0
    obtain ⟨v', hv, _, _, _, hvnil, hvfix⟩ :=
      transferVal_spec val (hnil (key, val) (List.mem_cons_self _ _))
    obtain ⟨out, ho, hkeys, hnodup, hget, hval, hlen, hfix⟩ :=
      ih (fun e he => hnil e (List.mem_cons_of_mem _ he)) (acc.set (norm upper key) v')
    refine ⟨out, ?_, ?_, ?_, ?_, ?_, ?_, ?_⟩
    · rw [beforeUpdateLoop_cons, hv]
      exact ho
    · intro k'
      rw [hkeys k', GoMap.mem_keys_set]
      constructor
      · rintro ((h | h) | ⟨e, he, h⟩)
        · exact Or.inr ⟨(key, val), List.mem_cons_self _ _, h⟩
        · exact Or.inl h
        · exact Or.inr ⟨e, List.mem_cons_of_mem _ he, h⟩
      · rintro (h | ⟨e, he, h⟩)
        · exact Or.inl (Or.inr h)
        · rcases List.mem_cons.mp he with rfl | he
          · exact Or.inl (Or.inl h)
          · exact Or.inr ⟨e, he, h⟩
    · intro hn
      exact hnodup (GoMap.nodup_keys_set acc _ _ hn)
    · intro k' hk'
      rw [hget k' (fun e he => hk' e (List.mem_cons_of_mem _ he)), GoMap.get_set,
        if_neg (hk' (key, val) (List.mem_cons_self _ _))]
    · intro hn e he
      simp only [List.map_cons, List.nodup_cons, List.mem_map, not_exists, not_and] at hn
      rcases List.mem_cons.mp he with rfl | he
      · refine ⟨v', hv, ?_⟩
        rw [hget _ (fun e he => hn.1 e he), GoMap.get_set, if_pos rfl]
      · exact hval hn.2 e he
    · intro hacc hn hnot
      simp only [List.map_cons, List.nodup_cons, List.mem_map, not_exists, not_and] at hn
      have h0 : norm upper key ∉ acc.keys := hnot (key, val) (List.mem_cons_self _ _)
      rw [hlen (GoMap.nodup_keys_set acc _ _ hacc) hn.2 ?_, GoMap.length_set_of_not_mem acc _ _ h0]
      · simp only [List.length_cons]; omega
      · intro e he hmem
        rcases (GoMap.mem_keys_set acc _ _ _).mp hmem with h | h
        · exact hn.1 e he h
        · exact hnot e (List.mem_cons_of_mem _ he) h
    · intro hacc
      refine hfix (fun e he => ?_)
      simp only [GoMap.set, List.mem_cons] at he
      rcases he with rfl | he
      · exact ⟨hvnil, hvfix⟩
      · exact hacc e (GoMap.mem_of_mem_delete acc _ e he)

theorem asciiUpper_cases (c : Char) :
    (asciiUpper c = c ∧ ¬ (97 ≤ c.toNat ∧ c.toNat ≤ 122)) ∨
      (65 ≤ (asciiUpper c).toNat ∧ (asciiUpper c).toNat ≤ 90) := by
  by_cases h : 97 ≤ c.toNat ∧ c.toNat ≤ 122
  · right
    have hc : c = Char.ofNat c.toNat := (Char.ofNat_toNat c).symm
    obtain ⟨h1, h2⟩ := h
    generalize c.toNat = n at hc h1 h2
    subst hc
    interval_cases n <;> decide
  · left
    exact ⟨by simp [asciiUpper, h], h⟩

theorem asciiUpper_idem (c : Char) : asciiUpper (asciiUpper c) = asciiUpper c := by
  rcases asciiUpper_cases c with ⟨h, hn⟩ | h
  · rw [h, h]
  · have : ¬ (97 ≤ (asciiUpper c).toNat ∧ (asciiUpper c).toNat ≤ 122) := by omega
    generalize asciiUpper c = d at this
    unfold asciiUpper
    rw [if_neg this]

theorem asciiUpper_quote (c : Char) (h : asciiUpper c = '"') : c = '"' := by
  rcases asciiUpper_cases c with ⟨h1, _⟩ | h1
  · rw [← h1]; exact h
  · rw [h] at h1
    exact absurd h1 (by decide)

theorem dropWhile_rdropWhile_self (p : Char → Bool) (y : List Char)
    (h : y.dropWhile p = y) : (y.rdropWhile p).dropWhile p = y.rdropWhile p := by
  cases hr : y.rdropWhile p with
  | nil => rfl
  | cons b s =>
    obtain ⟨t, ht⟩ : b :: s <+: y := hr ▸ List.rdropWhile_prefix p y
    have hb : ¬ p b = true := by
      have := List.dropWhile_eq_self_iff.mp h
      rw [← ht] at this
      simpa using this (by simp)
    simp [List.dropWhile_cons, hb]

theorem dropWhile_map_self (p : Char → Bool) (f : Char → Char)
    (hf : ∀ c, p (f c) = true → p c = true) (X : List Char) (h : X.dropWhile p = X) :
    (X.map f).dropWhile p = X.map f := by
  cases X with
  | nil => rfl
  | cons x xs =>
    have hx : ¬ p x = true := by
      have := List.dropWhile_eq_self_iff.mp h
      simpa using this (by simp)
    have : ¬ p (f x) = true := fun h' => hx (hf x h')
    simp [List.dropWhile_cons, this]

theorem rdropWhile_map_self (p : Char → Bool) (f : Char → Char)
    (hf : ∀ c, p (f c) = true → p c = true) (X : List Char) (h : X.rdropWhile p = X) :
    (X.map f).rdropWhile p = X.map f := by
  have h' : X.reverse.dropWhile p = X.reverse := by
    have := congrArg List.reverse h
    simpa [List.rdropWhile] using this
  have := dropWhile_map_self p f hf X.reverse h'
  unfold List.rdropWhile
  rw [← List.map_reverse, this, List.map_reverse, List.reverse_reverse]

theorem trim_wrap (p : Char → Bool) (hq : p '"' = true) (X : List Char)
    (h1 : X.dropWhile p = X) (h2 : X.rdropWhile p = X) :
    (('"' :: (X ++ ['"'])).dropWhile p).rdropWhile p = X := by
  rw [List.dropWhile_cons, if_pos hq]
  cases X with
  | nil => simp [List.dropWhile_cons, hq, List.rdropWhile]
  | cons x xs =>
    have hx : ¬ p x = true := by
      have := List.dropWhile_eq_self_iff.mp h1
      simpa using this (by simp)
    have : (x :: xs ++ ['"']).dropWhile p = x :: xs ++ ['"'] := by
      simp [List.dropWhile_cons, hx]
    rw [this, List.rdropWhile_concat_pos p _ _ hq, h2]

theorem norm_data (upper : Char → Char) (s : String) :
    (norm upper s).data =
      '"' :: (((s.data.dropWhile (fun c => "\"".data.contains c)).rdropWhile
        (fun c => "\"".data.contains c)).map upper ++ ['"']) := by
  simp [norm, ToUpper, Trim, String.data_append]

theorem norm_idem (upper : Char → Char) (hidem : ∀ c, upper (upper c) = upper c)
    (hquote : ∀ c, upper c = '"' → c = '"') (s : String) :
    norm upper (norm upper s) = norm upper s := by
  apply String.ext
  have hq : (fun c => "\"".data.contains c) '"' = true := by decide
  have hf : ∀ c, (fun c => "\"".data.contains c) (upper c) = true →
      (fun c => "\"".data.contains c) c = true := by
    intro c hc
    have h1 : upper c = '"' := by simpa using hc
    have h2 := hquote c h1
    simp [h2]
  rw [norm_data upper (norm upper s), norm_data upper s]
  generalize hT : ((s.data.dropWhile (fun c => "\"".data.contains c)).rdropWhile
    (fun c => "\"".data.contains c)) = T
  have hT1 : T.dropWhile (fun c => "\"".data.contains c) = T := by
    rw [← hT]
    exact dropWhile_rdropWhile_self _ _ (List.dropWhile_idempotent _ _)
  have hT2 : T.rdropWhile (fun c => "\"".data.contains c) = T := by
    rw [← hT]
    exact List.rdropWhile_idempotent _ _
  rw [trim_wrap _ hq (T.map upper) (dropWhile_map_self _ _ hf T hT1)
    (rdropWhile_map_self _ _ hf T hT2)]
  simp [List.map_map, Function.comp_def, hidem]

theorem upperDBNameLoop_cons (upper : Char → Char) (i : Nat) (dbName : String)
    (rest : List String) (schema : Schema) :
    upperDBNameLoop upper i (dbName :: rest) schema =
      match schema.FieldsByDBName.get dbName with
      | none => .error nilDeref
      | some field =>
        if field < schema.Fields.length then
          upperDBNameLoop upper (i + 1) rest
            { schema with
              DBNames := schema.DBNames.set i (norm upper dbName)
              Fields := schema.Fields.modify
                (fun f => { f with DBName := norm upper dbName }) field
              FieldsByDBName := schema.FieldsByDBName.set (norm upper dbName) field }
        else .error nilDeref := by
  rfl

theorem hasField_step (schema : Schema) (i field : Nat) (name k : String)
    (f : Field → Field) (hfield : field < schema.Fields.length) :
    (HasField schema k ∨ k = name) →
      HasField { schema with
        DBNames := schema.DBNames.set i name
        Fields := schema.Fields.modify f field
        FieldsByDBName := schema.FieldsByDBName.set name field } k := by
  intro h
  unfold HasField
  simp only [GoMap.get_set, List.length_modify]
  by_cases hk : name = k
  · exact ⟨field, by simp [hk], hfield⟩
  · rcases h with ⟨fld, h1, h2⟩ | h
    · exact ⟨fld, by simp [hk, h1], h2⟩
    · exact absurd h.symm hk

theorem upperDBNameLoop_ok (upper : Char → Char) (names : List String) :
    ∀ (i : Nat) (schema : Schema), (∀ n ∈ names, HasField schema n) →
      ∃ schema', upperDBNameLoop upper i names schema = .ok schema' := by
  induction names with
  | nil => intro i schema _; exact ⟨schema, rfl⟩
  | cons n rest ih =>
    intro i schema h
    obtain ⟨field, hget, hlt⟩ := h n (List.mem_cons_self _ _)
    rw [upperDBNameLoop_cons, hget]
    simp only [if_pos hlt]
    exact ih _ _ (fun m hm =>
      hasField_step schema i field _ m _ hlt (Or.inl (h m (List.mem_cons_of_mem _ hm))))

theorem upperDBNameLoop_spec (upper : Char → Char) (names : List String) :
    ∀ (done : List String) (schema schema' : Schema), schema.DBNames = done ++ names →
      upperDBNameLoop upper done.length names schema = .ok schema' →
      schema'.DBNames = done ++ names.map (norm upper) ∧
        schema'.Table = schema.Table ∧
        (∀ n ∈ names, HasField schema' (norm upper n)) ∧
        (∀ k, HasField schema k → HasField schema' k) := by
  induction names with
  | nil =>
    intro done schema schema' hd h
    simp only [upperDBNameLoop, Except.ok.injEq] at h
    subst h
    exact ⟨by simpa using hd, rfl, fun n hn => absurd hn (List.not_mem_nil n), fun k hk => hk⟩
  | cons n rest ih =>
    intro done schema schema' hd h
    rw [upperDBNameLoop_cons] at h
    cases hget : schema.FieldsByDBName.get n with
    | none => simp [hget] at h
    | some field =>
      rw [hget] at h
      simp only at h
      by_cases hlt : field < schema.Fields.length
      · rw [if_pos hlt] at h
        have hset : schema.DBNames.set done.length (norm upper n)
            = (done ++ [norm upper n]) ++ rest := by
          rw [hd, List.set_append]
          simp
        have hlen : (done ++ [norm upper n]).length = done.length + 1 := by simp
        rw [← hlen] at h
        obtain ⟨h1, h2, h3, h4⟩ := ih (done ++ [norm upper n]) _ schema' hset h
        refine ⟨by simpa using h1, h2, fun m hm => ?_, fun k hk => ?_⟩
        · rcases List.mem_cons.mp hm with rfl | hm
          · exact h4 _ (hasField_step schema _ field _ _ _ hlt (Or.inr rfl))
          · exact h3 m hm
        · exact h4 k (hasField_step schema _ field _ k _ hlt (Or.inl hk))
      · rw [if_neg hlt] at h
        simp at h

theorem upperDBName_twice (g : Gorm) (hidem : ∀ s, norm g.upper (norm g.upper s) = norm g.upper s)
    (db db1 : DB) (h : upperDBName g db = .ok db1) :
    ∃ db2, upperDBName g db1 = .ok db2 ∧ dbNames db2 = dbNames db1 := by
  unfold upperDBName at h
  cases hs : db.Statement with
  | none =>
    simp only [hs, Except.ok.injEq] at h
    subst h
    exact ⟨db, by simp [upperDBName, hs], rfl⟩
  | some stmt =>
    rw [hs] at h
    simp only at h
    cases hsc : stmt.Schema with
    | none =>
      simp only [hsc, Except.ok.injEq] at h
      subst h
      refine ⟨_, by simp only [upperDBName, hsc]; rfl, ?_⟩
      have := hidem stmt.Table
      simp only [norm] at this
      simp [dbNames, hsc, this]
    | some schema =>
      rw [hsc] at h
      simp only at h
      cases hl : upperDBNameLoop g.upper 0 schema.DBNames
          { schema with Table := "\"" ++ ToUpper g.upper (Trim stmt.Table "\"") ++ "\"" } with
      | error p => simp [hl] at h
      | ok schema1 =>
        simp only [hl, Except.ok.injEq] at h
        subst h
        obtain ⟨hnames, htable, hfields, _⟩ :=
          upperDBNameLoop_spec g.upper schema.DBNames [] _ schema1 (by simp) hl
        simp only [List.nil_append] at hnames
        have hT := hidem stmt.Table
        simp only [norm] at hT
        have hwf : ∀ n ∈ schema1.DBNames,
            HasField { schema1 with
              Table := "\"" ++ ToUpper g.upper (Trim stmt.Table "\"") ++ "\"" } n := by
          intro n hn
          rw [hnames] at hn
          obtain ⟨m, hm, rfl⟩ := List.mem_map.mp hn
          exact hfields m hm
        obtain ⟨schema2, hl2⟩ := upperDBNameLoop_ok g.upper schema1.DBNames 0
          { schema1 with Table := "\"" ++ ToUpper g.upper (Trim stmt.Table "\"") ++ "\"" } hwf
        obtain ⟨hnames2, _, _, _⟩ :=
          upperDBNameLoop_spec g.upper schema1.DBNames [] _ schema2 (by simp) hl2
        simp only [List.nil_append] at hnames2
        have hsame : schema2.DBNames = schema1.DBNames := by
          rw [hnames2, hnames, List.map_map]
          apply List.map_congr_left
          intro a _
          exact hidem a
        refine ⟨{ db with Statement := some { stmt with
            Table := "\"" ++ ToUpper g.upper (Trim stmt.Table "\"") ++ "\"",
            Schema := some schema2 } }, ?_, ?_⟩
        · simp only [upperDBName, hT, hl2]
        · simp [dbNames, hsame]

theorem upperDBName_ok (g : Gorm) (db : DB)
    (h : ∀ stmt schema, db.Statement = some stmt → stmt.Schema = some schema →
      SchemaConsistent schema) :
    ∃ db1, upperDBName g db = .ok db1 := by
  unfold upperDBName
  cases hs : db.Statement with
  | none => exact ⟨db, rfl⟩
  | some stmt =>
    simp only
    cases hsc : stmt.Schema with
    | none => exact ⟨_, rfl⟩
    | some schema =>
      simp only
      obtain ⟨schema1, hl⟩ := upperDBNameLoop_ok g.upper schema.DBNames 0
        { schema with Table := "\"" ++ ToUpper g.upper (Trim stmt.Table "\"") ++ "\"" }
        (h stmt schema hs hsc)
      rw [hl]
      exact ⟨_, rfl⟩

theorem beforeUpdateLoop_values (upper : Char → Char) (m : GoMap Value) :
    ∀ acc out, beforeUpdateLoop upper m acc = .ok out → ∀ e ∈ m, e.2 ≠ Value.nil := by
  induction m with
  | nil => intro _ _ _ e he; exact absurd he (List.not_mem_nil e)
  | cons e0 rest ih =>
    intro acc out h e he
    obtain ⟨key, val⟩ := e0
    rw [beforeUpdateLoop_cons] at h
    cases hv : transferVal val with
    | error p => simp [hv] at h
    | ok v =>
      rw [hv] at h
      rcases List.mem_cons.mp he with rfl | he
      · intro hnil
        simp only at hnil
        rw [hnil] at hv
        have hp : transferVal Value.nil = .error nilDeref := by decide
        rw [hp] at hv
        exact Except.noConfusion hv
      · exact ih _ _ h e he

theorem beforeUpdateLoop_twice (upper : Char → Char)
    (hidem : ∀ s, norm upper (norm upper s) = norm upper s) (m m1 : GoMap Value)
    (h : beforeUpdateLoop upper m [] = .ok m1) :
    ∃ m2, beforeUpdateLoop upper m1 [] = .ok m2 ∧ ∀ k, k ∈ m2.keys ↔ k ∈ m1.keys := by
  have hnil := beforeUpdateLoop_values upper m [] m1 h
  obtain ⟨out, ho, hkeys, _, _, _, _, hfix⟩ := beforeUpdateLoop_spec upper m hnil []
  rw [h] at ho
  simp only [Except.ok.injEq] at ho
  subst ho
  have hnil1 : ∀ e ∈ m1, e.2 ≠ Value.nil :=
    fun e he => (hfix (fun e he => absurd he (List.not_mem_nil e)) e he).1
  obtain ⟨m2, h2, hkeys2, _⟩ := beforeUpdateLoop_spec upper m1 hnil1 []
  refine ⟨m2, h2, fun k => ?_⟩
  rw [hkeys2 k]
  simp only [GoMap.keys, List.map_nil, List.not_mem_nil, false_or]
  constructor
  · rintro ⟨e, he, rfl⟩
    have hmem : e.1 ∈ m1.keys := List.mem_map.mpr ⟨e, he, rfl⟩
    obtain ⟨e0, _, h0⟩ := ((hkeys e.1).mp hmem).resolve_left (by simp [GoMap.keys])
    have : norm upper e.1 = e.1 := by rw [h0, hidem]
    rw [this]
    exact hmem
  · intro hk
    obtain ⟨e, he, rfl⟩ := List.mem_map.mp hk
    obtain ⟨e0, _, h0⟩ := ((hkeys e.1).mp hk).resolve_left (by simp [GoMap.keys])
    exact ⟨e, he, by rw [h0, hidem]⟩

/-- C10: identifier normalisation is idempotent.  Let `unicode.ToUpper` be a rune mapping
that is idempotent and sends no rune other than the double quote to the double quote.
Writing `norm(s) = '"' + ToUpper(Trim(s, '"')) + '"'`, `norm(norm(s)) = norm(s)` for
every string `s`.  Hence a second run of `upperDBName` returns whenever the first did
and leaves `Statement.Table` and every entry of `Schema.DBNames` as the first run
produced them (the first run returns on every schema whose names all have a field); and
the key rewrite of `BeforeUpdate` and `BeforeDelete`, applied to an already rewritten
`Dest`, returns the same keys. -/
theorem C10_norm_idempotent (g : Gorm) (hidem : ∀ c, g.upper (g.upper c) = g.upper c)
    (hquote : ∀ c, g.upper c = '"' → c = '"') :
    (∀ s, norm g.upper (norm g.upper s) = norm g.upper s) ∧
    (∀ db db1, upperDBName g db = .ok db1 →
      ∃ db2, upperDBName g db1 = .ok db2 ∧ dbNames db2 = dbNames db1) ∧
    (∀ db, (∀ stmt schema, db.Statement = some stmt → stmt.Schema = some schema →
        SchemaConsistent schema) → ∃ db1, upperDBName g db = .ok db1) ∧
    (∀ m m1, beforeUpdateLoop g.upper m [] = .ok m1 →
      ∃ m2, beforeUpdateLoop g.upper m1 [] = .ok m2 ∧ ∀ k, k ∈ m2.keys ↔ k ∈ m1.keys) ∧
    (∀ m m1, beforeDeleteLoop g.upper m [] = .ok m1 →
      ∃ m2, beforeDeleteLoop g.upper m1 [] = .ok m2 ∧ ∀ k, k ∈ m2.keys ↔ k ∈ m1.keys) := by
  have hn := norm_idem g.upper hidem hquote
  refine ⟨hn, upperDBName_twice g hn, upperDBName_ok g, beforeUpdateLoop_twice g.upper hn,
    fun m m1 h => ?_⟩
  rw [beforeDeleteLoop_eq] at h
  obtain ⟨m2, h2, hk⟩ := beforeUpdateLoop_twice g.upper hn m m1 h
  exact ⟨m2, by rw [beforeDeleteLoop_eq]; exact h2, hk⟩

/-- A witness of C10: with the ASCII rune mapping, the name `"name` normalises to
`"NAME"`, and normalising again changes nothing. -/
theorem C10_norm_idempotent_witness :
    norm sampleGorm.upper "\"name" = "\"NAME\"" ∧
    norm sampleGorm.upper (norm sampleGorm.upper "\"name") = norm sampleGorm.upper "\"name" :=
  ⟨by decide, (C10_norm_idempotent sampleGorm asciiUpper_idem asciiUpper_quote).1 "\"name"⟩

end GormOracle
